import Mathlib

/-!
Verification of the OWASP Top Ten card game engine.

This file gives a shallow embedding, in Lean 4, of the game-state engine of
the repository: the card data model (src/types, src/data/cards), the match
rule, the asset lifecycle, the win-condition evaluator, the AI decision
policy (src/utils/ai.ts) and the turn/attack state machine
(src/hooks/useGameState.ts).  Definitions mirror the TypeScript source
function by function; sources of randomness (Math.random) are passed in as
explicit oracle arguments, and the session-global instance-id generator is
modelled by a counter threaded through the game state.  Display-only fields
of the TypeScript GameState (message, actionLog, lastAction, animation,
showOwaspInfo, coinFlipResult, cardsDrawnThisGame) and the card metadata
records (OWASP risk and control descriptions, card display ids) carry no
game logic and are omitted from the embedding.
-/

/-- Card suits.  Hearts and diamonds carry Threat Agent cards, spades and
clubs carry Defense Control cards (src/types). -/
inductive Suit
  | hearts
  | diamonds
  | spades
  | clubs
deriving DecidableEq, Repr

/-- Joker colors (src/types JokerType). -/
inductive JokerType
  | black
  | red
deriving DecidableEq, Repr

/-- Face card kinds backing cyber assets (src/types FaceCardType). -/
inductive FaceCardType
  | jack
  | queen
  | king
deriving DecidableEq, Repr

/-- Card categories, as the string union CardCategory of src/types. -/
inductive CardCategory
  | threat_agent
  | defense_control
  | asset
  | joker
deriving DecidableEq, Repr

/-- Playable cards: the tagged union ThreatAgentCard, DefenseControlCard,
JokerCard of src/types (PlayableCard).  The numeric value is 1 to 10 in the
generated deck; the OWASP metadata attached to each value is display-only
and omitted. -/
inductive PlayableCard
  | threatAgent (suit : Suit) (value : Nat)
  | defenseControl (suit : Suit) (value : Nat)
  | joker (jokerType : JokerType)
deriving DecidableEq, Repr

/-- The category tag carried by each playable card variant (src/types). -/
def PlayableCard.category : PlayableCard → CardCategory
  | .threatAgent _ _ => CardCategory.threat_agent
  | .defenseControl _ _ => CardCategory.defense_control
  | .joker _ => CardCategory.joker

/-- The numeric value field.  In the source only Threat Agent and Defense
Control cards carry a value; the joker case is unreachable in every guarded
use and is given the dummy value 0 here. -/
def PlayableCard.value : PlayableCard → Nat
  | .threatAgent _ v => v
  | .defenseControl _ v => v
  | .joker _ => 0

/-- Asset (face) cards: suit and face kind (src/types AssetCard).  The
derived display name is omitted. -/
structure AssetCard where
  suit : Suit
  faceType : FaceCardType
deriving DecidableEq, Repr

/-- Lifecycle states of a cyber asset (src/types AssetState). -/
inductive AssetState
  | facedown
  | revealed
  | rotated
  | destroyed
deriving DecidableEq, Repr

/-- A card in a hand, tagged with a session-unique instance id
(src/types HandCard).  Instance ids are modelled as naturals drawn from a
counter. -/
structure HandCard where
  instanceId : Nat
  card : PlayableCard
deriving DecidableEq, Repr

/-- A cyber asset on the board (src/types CyberAsset). -/
structure CyberAsset where
  instanceId : Nat
  card : AssetCard
  state : AssetState
  damageCount : Nat
deriving DecidableEq, Repr

/-- Per-player state (src/types PlayerState). -/
structure PlayerState where
  assets : List CyberAsset
  taHand : List HandCard
  dcHand : List HandCard
  taDiscard : List PlayableCard
  dcDiscard : List PlayableCard
  successfulDefenses : Nat
deriving DecidableEq, Repr

/-- Game phases (src/types GamePhase). -/
inductive GamePhase
  | difficulty_select
  | coin_flip
  | setup
  | draw_phase
  | attack_phase
  | defense_phase
  | resolution_phase
  | player_won
  | ai_won
deriving DecidableEq, Repr

/-- The two actors. -/
inductive Who
  | player
  | ai
deriving DecidableEq, Repr

/-- Difficulty tiers (src/types Difficulty, minus the null case which is
modelled with Option). -/
inductive Difficulty
  | easy
  | hard
  | brutal
deriving DecidableEq, Repr

/-- Stage labels of the three-step attack progression (src/types
AttackStage). -/
inductive AttackStage
  | observation
  | assessment
  | pwn
deriving DecidableEq, Repr

/-- The in-progress attack context (src/types AttackState).  In the source
the two card fields are nullable but are always assigned together with the
record; they are modelled as required fields. -/
structure AttackState where
  targetAsset : CyberAsset
  attackCard : HandCard
  stage : AttackStage
  attacksThisRound : Nat
deriving DecidableEq, Repr

/-- The root game state (src/types GameState).  The nextId field models
the session-global instance-id counter of src/utils/helpers
generateInstanceId; display-only fields are omitted. -/
structure GameState where
  phase : GamePhase
  currentAttacker : Who
  difficulty : Option Difficulty
  player : PlayerState
  ai : PlayerState
  taDeck : List PlayableCard
  dcDeck : List PlayableCard
  attackState : Option AttackState
  turnNumber : Nat
  selectedCard : Option HandCard
  selectedAsset : Option CyberAsset
  nextId : Nat
deriving DecidableEq, Repr

/-- The match rule canDefend of src/data/cards.ts: jokers on either side
always match; otherwise the defense must be a Defense Control, the attack a
Threat Agent, and the values equal. -/
def canDefend (attackCard defenseCard : PlayableCard) : Bool :=
  if defenseCard.category = CardCategory.joker then true
  else if attackCard.category = CardCategory.joker then true
  else if defenseCard.category ≠ CardCategory.defense_control then false
  else if attackCard.category ≠ CardCategory.threat_agent then false
  else defenseCard.value == attackCard.value

/-- The asset lifecycle step getNextAssetState of src/hooks/useGameState.ts:
facedown to revealed to rotated to destroyed, with the default branch
returning the input unchanged. -/
def getNextAssetState : AssetState → AssetState
  | AssetState.facedown => AssetState.revealed
  | AssetState.revealed => AssetState.rotated
  | AssetState.rotated => AssetState.destroyed
  | current => current

/-- Number of destroyed assets in a list, as the filter-length expressions
of checkWinCondition and countDestroyedAssets (src/utils/helpers). -/
def countDestroyedAssets (assets : List CyberAsset) : Nat :=
  (assets.filter (fun a => a.state = AssetState.destroyed)).length

/-- Assets needed to win by breach (ASSETS_TO_WIN in useGameState). -/
def ASSETS_TO_WIN : Nat := 2

/-- Successful defenses needed to win (DEFENSES_TO_WIN in useGameState). -/
def DEFENSES_TO_WIN : Nat := 6

/-- Initial hand size (HAND_SIZE in useGameState). -/
def HAND_SIZE : Nat := 5

/-- Assets dealt to each player (ASSETS_PER_PLAYER in useGameState). -/
def ASSETS_PER_PLAYER : Nat := 3

/-- The win-condition evaluator checkWinCondition of useGameState: four
conditions tested in a fixed order, falling back to the current phase. -/
def checkWinCondition (state : GameState) : GamePhase :=
  let playerDestroyedAssets := countDestroyedAssets state.player.assets
  let aiDestroyedAssets := countDestroyedAssets state.ai.assets
  if playerDestroyedAssets ≥ ASSETS_TO_WIN then GamePhase.ai_won
  else if aiDestroyedAssets ≥ ASSETS_TO_WIN then GamePhase.player_won
  else if state.player.successfulDefenses ≥ DEFENSES_TO_WIN then GamePhase.player_won
  else if state.ai.successfulDefenses ≥ DEFENSES_TO_WIN then GamePhase.ai_won
  else state.phase

/-- The phase component of getWinReason of useGameState (the human-readable
reason string is display-only and omitted): same four conditions in the
same order, returning none when no condition holds. -/
def getWinReason (state : GameState) : Option GamePhase :=
  let playerDestroyedAssets := countDestroyedAssets state.player.assets
  let aiDestroyedAssets := countDestroyedAssets state.ai.assets
  if playerDestroyedAssets ≥ ASSETS_TO_WIN then some GamePhase.ai_won
  else if aiDestroyedAssets ≥ ASSETS_TO_WIN then some GamePhase.player_won
  else if state.player.successfulDefenses ≥ DEFENSES_TO_WIN then some GamePhase.player_won
  else if state.ai.successfulDefenses ≥ DEFENSES_TO_WIN then some GamePhase.ai_won
  else none

/-- One draw step loop of drawToHandSize (useGameState): while the hand is
below the target size and the deck is nonempty, shift a card off the front
of the deck and append it to the hand as a fresh HandCard.  The final Nat
is the advanced instance-id counter. -/
def drawToHandSize : List HandCard → List PlayableCard → Nat → Nat →
    List HandCard × List PlayableCard × Nat
  | hand, [], _, nid => (hand, [], nid)
  | hand, c :: rest, targetSize, nid =>
    if hand.length < targetSize then
      drawToHandSize (hand ++ [⟨nid, c⟩]) rest targetSize (nid + 1)
    else (hand, c :: rest, nid)

/-- Swap of two positions of a list; no-op when an index is out of range.
This is the bracket-swap step of the Fisher-Yates loops in
src/data/cards.ts createShuffledDeck and src/utils/helpers shuffle. -/
def listSwap (l : List α) (i j : Nat) : List α :=
  match l[i]?, l[j]? with
  | some a, some b => (l.set i b).set j a
  | _, _ => l

/-- Fisher-Yates auxiliary: performs the swaps for indices i, i-1, ..., 1.
The oracle js supplies the value of Math.random scaled to an index: at
position i the source draws a uniform j in the range 0..i, modelled by
js i taken modulo i+1. -/
def fyAux (js : Nat → Nat) : List α → Nat → List α
  | l, 0 => l
  | l, i + 1 => fyAux js (listSwap l (i + 1) (js (i + 1) % (i + 2))) i

/-- The Fisher-Yates shuffle of src/utils/helpers (shuffle) and
src/data/cards.ts (createShuffledDeck): for i from the last index down
to 1, swap position i with a random position in 0..i. -/
def shuffle (js : Nat → Nat) (l : List α) : List α :=
  fyAux js l (l.length - 1)

/-- createShuffledDeck of src/data/cards.ts is the same Fisher-Yates
shuffle applied to a copy of the card list. -/
def createShuffledDeck (js : Nat → Nat) (cards : List PlayableCard) : List PlayableCard :=
  shuffle js cards

/-- The card values 1 to 10 of the generated deck. -/
def cardValues : List Nat := [1, 2, 3, 4, 5, 6, 7, 8, 9, 10]

/-- The result record of generateFullDeck (src/data/cards.ts). -/
structure FullDeck where
  taCards : List PlayableCard
  dcCards : List PlayableCard
  taAssets : List AssetCard
  dcAssets : List AssetCard
  jokers : List PlayableCard

/-- generateFullDeck of src/data/cards.ts: Threat Agent cards for hearts
and diamonds at values 1-10, Defense Control cards for spades and clubs at
values 1-10, three face cards per suit on each side, and two jokers. -/
def generateFullDeck : FullDeck :=
  { taCards :=
      cardValues.map (PlayableCard.threatAgent Suit.hearts) ++
      cardValues.map (PlayableCard.threatAgent Suit.diamonds),
    dcCards :=
      cardValues.map (PlayableCard.defenseControl Suit.spades) ++
      cardValues.map (PlayableCard.defenseControl Suit.clubs),
    taAssets :=
      [⟨Suit.hearts, FaceCardType.jack⟩, ⟨Suit.hearts, FaceCardType.queen⟩,
       ⟨Suit.hearts, FaceCardType.king⟩, ⟨Suit.diamonds, FaceCardType.jack⟩,
       ⟨Suit.diamonds, FaceCardType.queen⟩, ⟨Suit.diamonds, FaceCardType.king⟩],
    dcAssets :=
      [⟨Suit.spades, FaceCardType.jack⟩, ⟨Suit.spades, FaceCardType.queen⟩,
       ⟨Suit.spades, FaceCardType.king⟩, ⟨Suit.clubs, FaceCardType.jack⟩,
       ⟨Suit.clubs, FaceCardType.queen⟩, ⟨Suit.clubs, FaceCardType.king⟩],
    jokers := [PlayableCard.joker JokerType.black, PlayableCard.joker JokerType.red] }

/-- createHandCard over a list, assigning consecutive instance ids starting
at nid, as the map over createHandCard does with the session-global id
counter in initializeGame. -/
def createHandCards (nid : Nat) : List PlayableCard → List HandCard
  | [] => []
  | c :: rest => ⟨nid, c⟩ :: createHandCards (nid + 1) rest

/-- createCyberAsset over a list (src/utils/helpers): each asset starts
facedown with damage 0; consecutive instance ids starting at nid. -/
def createCyberAssets (nid : Nat) : List AssetCard → List CyberAsset
  | [] => []
  | c :: rest => ⟨nid, c, AssetState.facedown, 0⟩ :: createCyberAssets (nid + 1) rest

/-- Randomness consumed by initializeGame: the scaled Math.random draws of
the four Fisher-Yates shuffles (attack pile, defense pile, and the two
asset pools). -/
structure InitRand where
  taJs : Nat → Nat
  dcJs : Nat → Nat
  taAssetJs : Nat → Nat
  dcAssetJs : Nat → Nat

/-- initializeGame of src/hooks/useGameState.ts: generate the full deck,
shuffle the attack pile (Threat Agent cards plus the first joker), the
defense pile (Defense Control cards plus the second joker) and both asset
pools, deal five cards to each hand from the front (player first), deal
three defense-suit assets to the player and three attack-suit assets to
the AI, and start in difficulty_select.  Instance ids are assigned in the
source creation order: player attack hand, player defense hand, player
assets, AI attack hand, AI defense hand, AI assets. -/
def initGame (o : InitRand) : GameState :=
  let deck := generateFullDeck
  let shuffledTA := createShuffledDeck o.taJs
    (deck.taCards ++ [deck.jokers.getD 0 (PlayableCard.joker JokerType.black)])
  let shuffledDC := createShuffledDeck o.dcJs
    (deck.dcCards ++ [deck.jokers.getD 1 (PlayableCard.joker JokerType.red)])
  let shuffledTAAssets := shuffle o.taAssetJs deck.taAssets
  let shuffledDCAssets := shuffle o.dcAssetJs deck.dcAssets
  let playerTAHand := createHandCards 0 (shuffledTA.take HAND_SIZE)
  let n1 := playerTAHand.length
  let playerDCHand := createHandCards n1 (shuffledDC.take HAND_SIZE)
  let n2 := n1 + playerDCHand.length
  let playerAssets := createCyberAssets n2 (shuffledDCAssets.take ASSETS_PER_PLAYER)
  let n3 := n2 + playerAssets.length
  let aiTAHand := createHandCards n3 ((shuffledTA.drop HAND_SIZE).take HAND_SIZE)
  let n4 := n3 + aiTAHand.length
  let aiDCHand := createHandCards n4 ((shuffledDC.drop HAND_SIZE).take HAND_SIZE)
  let n5 := n4 + aiDCHand.length
  let aiAssets := createCyberAssets n5 (shuffledTAAssets.take ASSETS_PER_PLAYER)
  let n6 := n5 + aiAssets.length
  { phase := GamePhase.difficulty_select,
    currentAttacker := Who.player,
    difficulty := none,
    player :=
      { assets := playerAssets, taHand := playerTAHand, dcHand := playerDCHand,
        taDiscard := [], dcDiscard := [], successfulDefenses := 0 },
    ai :=
      { assets := aiAssets, taHand := aiTAHand, dcHand := aiDCHand,
        taDiscard := [], dcDiscard := [], successfulDefenses := 0 },
    taDeck := shuffledTA.drop (HAND_SIZE * 2),
    dcDeck := shuffledDC.drop (HAND_SIZE * 2),
    attackState := none,
    turnNumber := 1,
    selectedCard := none,
    selectedAsset := none,
    nextId := n6 }

/-- getRandomElement of src/utils/helpers: undefined on an empty list,
otherwise the element at a uniformly random index, here the oracle r
scaled into range by taking it modulo the length. -/
def getRandomElement (r : Nat) (l : List α) : Option α :=
  if l.isEmpty then none else l[r % l.length]?

/-- The stateRank table of aiChooseTarget (src/utils/ai.ts): rotated 3,
revealed 2, facedown 1, destroyed 0. -/
def stateRank : AssetState → Nat
  | AssetState.facedown => 1
  | AssetState.revealed => 2
  | AssetState.rotated => 3
  | AssetState.destroyed => 0

/-- The comparator of aiChooseTarget as a strict preference: a beats best
when it has strictly higher state rank, or equal rank and strictly more
damage. -/
def betterTarget (a best : CyberAsset) : Bool :=
  stateRank best.state < stateRank a.state ||
    (stateRank best.state == stateRank a.state && best.damageCount < a.damageCount)

/-- aiChooseTarget of src/utils/ai.ts: filter out destroyed assets and
take the head of the list stably sorted by descending state rank, ties by
descending damage.  The head of that stable sort is the first element of
the filtered list that no later element strictly beats, computed here by a
left fold that replaces the current best only on a strict improvement. -/
def aiChooseTarget (assets : List CyberAsset) : Option CyberAsset :=
  match assets.filter (fun a => a.state != AssetState.destroyed) with
  | [] => none
  | t :: ts => some (ts.foldl (fun best a => if betterTarget a best then a else best) t)

/-- The sort key of the attack-card comparators in aiChooseAttackCard: the
numeric value for Threat Agent cards and 0 otherwise. -/
def attackValue (hc : HandCard) : Nat :=
  if hc.card.category = CardCategory.threat_agent then hc.card.value else 0

/-- Head of the list stably sorted by descending attackValue (the
pattern list.sort.compare-descending-then-index-0 used three times in
aiChooseAttackCard), computed as a strict-improvement fold. -/
def pickHighestValue : List HandCard → Option HandCard
  | [] => none
  | t :: ts => some (ts.foldl (fun best a => if attackValue best < attackValue a then a else best) t)

/-- aiChooseAttackCard of src/utils/ai.ts, returning the chosen hand card
(the AIDecision wrapper and its display reasoning string are omitted;
none models the no-card decision).  Easy difficulty picks a random usable
card; hard and brutal prefer an undefendable card of highest value, then a
card whose value no Defense Control in the defender's hand matches, then
the highest-value usable card. -/
def aiChooseAttackCard (taHand : List HandCard) (defenderDcHand : List HandCard)
    (difficulty : Difficulty) (r : Nat) : Option HandCard :=
  if taHand.isEmpty then none
  else
    let taCards := taHand.filter (fun hc => hc.card.category == CardCategory.threat_agent)
    let jokerCards := taHand.filter (fun hc => hc.card.category == CardCategory.joker)
    let usableAttackCards := if !taCards.isEmpty then taCards else jokerCards
    match difficulty with
    | Difficulty.easy => (getRandomElement r usableAttackCards).orElse (fun _ => usableAttackCards.head?)
    | _ =>
      let defenderCards := defenderDcHand.map (fun hc => hc.card)
      let notDefendable := usableAttackCards.filter
        (fun att => !(defenderCards.any (fun d => canDefend att.card d)))
      if !notDefendable.isEmpty then pickHighestValue notDefendable
      else
        let matchingDcValues :=
          (defenderCards.filter (fun c => c.category == CardCategory.defense_control)).map
            PlayableCard.value
        let forcesJoker := usableAttackCards.filter
          (fun att => att.card.category == CardCategory.threat_agent &&
            !(matchingDcValues.contains att.card.value))
        if !forcesJoker.isEmpty then pickHighestValue forcesJoker
        else pickHighestValue usableAttackCards

/-- The defense Bernoulli success probability of aiChooseDefense — 0.15
easy, 0.5 hard, 0.95 brutal — expressed as a whole percentile.  Every
Math.random draw in this embedding is modelled by its percentile, a
natural number in 0..99, and a comparison random < p of the source
becomes percentile < 100 p; since every probability threshold in the
source is a whole number of percent, the set of possible outcomes is
preserved exactly. -/
def defendChance : Difficulty → Nat
  | Difficulty.easy => 15
  | Difficulty.hard => 50
  | Difficulty.brutal => 95

/-- aiChooseDefense of src/utils/ai.ts, returning the chosen defense card
(none models every no-card decision).  The oracle r is the Math.random
draw compared against the difficulty chance; a valid non-joker defense is
preferred in hand order, with a joker only as last resort. -/
def aiChooseDefense (dcHand : List HandCard) (attackCard : PlayableCard)
    (difficulty : Difficulty) (r : Nat) : Option HandCard :=
  if dcHand.isEmpty then none
  else
    let validDefenses := dcHand.filter (fun hc => canDefend attackCard hc.card)
    if validDefenses.isEmpty then none
    else if !(r < defendChance difficulty) then none
    else
      let nonJokerDefenses := validDefenses.filter (fun hc => hc.card.category != CardCategory.joker)
      if !nonJokerDefenses.isEmpty then nonJokerDefenses.head?
      else validDefenses.find? (fun hc => hc.card.category == CardCategory.joker)

/-- The continue Bernoulli probability of aiDecideContinueOrEnd — 0.3
easy, 0.7 hard, 0.95 brutal — as a whole percentile (see defendChance). -/
def continueChance : Difficulty → Nat
  | Difficulty.easy => 30
  | Difficulty.hard => 70
  | Difficulty.brutal => 95

/-- aiDecideContinueOrEnd of src/utils/ai.ts as a Bool (true is the attack
decision, false the draw-end decision; the unused successful-attacks
parameter, always passed 0, is dropped): end with no valid target or empty
hand; always continue onto a rotated target; end when below three cards;
otherwise continue with the difficulty probability. -/
def aiDecideContinueOrEnd (taHand : List HandCard) (targetAssets : List CyberAsset)
    (difficulty : Difficulty) (r : Nat) : Bool :=
  let validTargets := targetAssets.filter (fun a => a.state != AssetState.destroyed)
  if validTargets.isEmpty then false
  else if taHand.isEmpty then false
  else
    let rotatedTargets := validTargets.filter (fun a => a.state == AssetState.rotated)
    if !rotatedTargets.isEmpty && taHand.length ≥ 1 then true
    else if taHand.length < 3 then false
    else decide (r < continueChance difficulty)

/-- The derivation of the attack stage from the target state used in both
playerAttack and executeAITurn: facedown gives observation, revealed gives
assessment, anything else pwn. -/
def stageOf : AssetState → AttackStage
  | AssetState.facedown => AttackStage.observation
  | AssetState.revealed => AttackStage.assessment
  | _ => AttackStage.pwn

/-- The damage-application block shared verbatim by playerAttack and
executeAITurn: find the target asset by instance id (findIndex); if found,
replace that entry with a copy whose state is the successor of the
snapshot state of the targeted asset and whose damage counter is
incremented; if not found, leave the list unchanged.  The
findIndex-then-assign of the source is rendered as a first-match
replacement recursion, which produces the same list. -/
def damageAssetAt (assets : List CyberAsset) (targetId : Nat) (snapshotState : AssetState) :
    List CyberAsset :=
  match assets with
  | [] => []
  | a :: rest =>
    if a.instanceId = targetId then
      { a with state := getNextAssetState snapshotState,
               damageCount := a.damageCount + 1 } :: rest
    else a :: damageAssetAt rest targetId snapshotState

/-- selectCard of useGameState: replace the transient card selection. -/
def selectCard (card : Option HandCard) (s : GameState) : GameState :=
  { s with selectedCard := card }

/-- selectAsset of useGameState: replace the transient asset selection. -/
def selectAsset (asset : Option CyberAsset) (s : GameState) : GameState :=
  { s with selectedAsset := asset }

/-- setDifficulty of useGameState: record the difficulty and advance to
the coin flip. -/
def setDifficulty (d : Difficulty) (s : GameState) : GameState :=
  { s with difficulty := some d, phase := GamePhase.coin_flip }

/-- playerAttack of useGameState (the sound, animation and OWASP info-box
calls are display-only).  Guards: both selections present, phase is
attack_phase, current attacker is the player; otherwise the state is
returned unchanged.  The selections are snapshots taken at selection time,
exactly as the source closes over selectedCard and selectedAsset.  The
oracle r is the Math.random draw inside aiChooseDefense. -/
def playerAttack (r : Nat) (s : GameState) : GameState :=
  match s.selectedCard, s.selectedAsset with
  | some attackCard, some targetAsset =>
    if s.phase ≠ GamePhase.attack_phase then s
    else if s.currentAttacker ≠ Who.player then s
    else
      let attacksThisRound :=
        (match s.attackState with | some a => a.attacksThisRound | none => 0) + 1
      let s1 : GameState := { s with
        attackState := some ⟨targetAsset, attackCard, stageOf targetAsset.state, attacksThisRound⟩,
        phase := GamePhase.defense_phase,
        selectedCard := none,
        selectedAsset := none }
      let aiDecision :=
        aiChooseDefense s1.ai.dcHand attackCard.card (s.difficulty.getD Difficulty.hard) r
      let s2 :=
        match aiDecision with
        | some defenseCard =>
          let playerTAHand := s1.player.taHand.filter
            (fun c => c.instanceId != attackCard.instanceId)
          let aiDCHand := s1.ai.dcHand.filter
            (fun c => c.instanceId != defenseCard.instanceId)
          let drawn := drawToHandSize aiDCHand s1.dcDeck (aiDCHand.length + 2) s1.nextId
          { s1 with
            player := { s1.player with
              taHand := playerTAHand,
              taDiscard := s1.player.taDiscard ++ [attackCard.card] },
            ai := { s1.ai with
              dcHand := drawn.1,
              dcDiscard := s1.ai.dcDiscard ++ [defenseCard.card],
              successfulDefenses := s1.ai.successfulDefenses + 1 },
            dcDeck := drawn.2.1,
            nextId := drawn.2.2,
            phase := GamePhase.attack_phase,
            attackState := none }
        | none =>
          { s1 with
            player := { s1.player with
              taHand := s1.player.taHand.filter (fun c => c.instanceId != attackCard.instanceId),
              taDiscard := s1.player.taDiscard ++ [attackCard.card] },
            ai := { s1.ai with
              assets := damageAssetAt s1.ai.assets targetAsset.instanceId targetAsset.state },
            phase := GamePhase.attack_phase,
            attackState := none }
      match getWinReason s2 with
      | some w => { s2 with phase := w }
      | none => s2
  | _, _ => s

/-- Randomness consumed by one iteration of the AI attack loop: the
Math.random draw inside easy-mode aiChooseAttackCard and the Math.random
draw inside aiDecideContinueOrEnd. -/
structure IterRand where
  rAttack : Nat
  rCont : Nat

/-- The while loop of executeAITurn (useGameState), one oracle entry per
iteration.  Each iteration chooses a target and an attack card (stopping
the loop when either is unavailable), records the attack context, looks
for the first matching card in the player defense hand, and either resolves
the block (which unconditionally ends the loop) or applies damage and asks
aiDecideContinueOrEnd; the win condition is evaluated at the end of every
resolved iteration and a terminal result stops the loop.  An exhausted
oracle list models stopping the loop early, which only adds behaviours
never reached by the source loop with its actual random draws. -/
def aiLoop : List IterRand → GameState → GameState
  | [], s => s
  | r :: rest, s =>
    if s.phase ≠ GamePhase.attack_phase then s
    else
      match aiChooseTarget s.player.assets with
      | none => s
      | some target =>
        match aiChooseAttackCard s.ai.taHand s.player.dcHand
            (s.difficulty.getD Difficulty.hard) r.rAttack with
        | none => s
        | some attackCard =>
          let attacksThisRound :=
            (match s.attackState with | some a => a.attacksThisRound | none => 0) + 1
          let s1 : GameState := { s with
            attackState := some ⟨target, attackCard, stageOf target.state, attacksThisRound⟩ }
          match s1.player.dcHand.find? (fun hc => canDefend attackCard.card hc.card) with
          | some playerDefense =>
            let aiTAHand := s1.ai.taHand.filter
              (fun c => c.instanceId != attackCard.instanceId)
            let playerDCHand := s1.player.dcHand.filter
              (fun c => c.instanceId != playerDefense.instanceId)
            let drawn := drawToHandSize playerDCHand s1.dcDeck (playerDCHand.length + 2) s1.nextId
            let s2 := { s1 with
              ai := { s1.ai with
                taHand := aiTAHand,
                taDiscard := s1.ai.taDiscard ++ [attackCard.card] },
              player := { s1.player with
                dcHand := drawn.1,
                dcDiscard := s1.player.dcDiscard ++ [playerDefense.card],
                successfulDefenses := s1.player.successfulDefenses + 1 },
              dcDeck := drawn.2.1,
              nextId := drawn.2.2 }
            let winCheck := checkWinCondition s2
            if winCheck ≠ GamePhase.attack_phase ∧ winCheck ≠ GamePhase.defense_phase then
              { s2 with phase := winCheck }
            else s2
          | none =>
            let s2 := { s1 with
              player := { s1.player with
                assets := damageAssetAt s1.player.assets target.instanceId target.state },
              ai := { s1.ai with
                taHand := s1.ai.taHand.filter (fun c => c.instanceId != attackCard.instanceId),
                taDiscard := s1.ai.taDiscard ++ [attackCard.card] } }
            let continueAttacking :=
              aiDecideContinueOrEnd s2.ai.taHand s2.player.assets
                (s.difficulty.getD Difficulty.hard) r.rCont
            let winCheck := checkWinCondition s2
            if winCheck ≠ GamePhase.attack_phase ∧ winCheck ≠ GamePhase.defense_phase then
              { s2 with phase := winCheck }
            else if continueAttacking then aiLoop rest s2
            else s2

/-- executeAITurn of useGameState: run the attack loop, then, when no win
condition ended it, replenish the AI attack hand by two, hand the attacker
role back to the player and advance the turn counter. -/
def executeAITurn (o : List IterRand) (s : GameState) : GameState :=
  let s1 := aiLoop o s
  if s1.phase = GamePhase.attack_phase then
    let drawn := drawToHandSize s1.ai.taHand s1.taDeck (s1.ai.taHand.length + 2) s1.nextId
    { s1 with
      ai := { s1.ai with taHand := drawn.1 },
      taDeck := drawn.2.1,
      nextId := drawn.2.2,
      currentAttacker := Who.player,
      turnNumber := s1.turnNumber + 1 }
  else s1

/-- endTurn of useGameState.  Guards: phase is attack_phase and the player
is the attacker; otherwise unchanged.  Replenish the player attack hand by
two, flip the attacker role, advance the turn counter, clear the
selections, then run the full AI turn. -/
def endTurn (o : List IterRand) (s : GameState) : GameState :=
  if s.phase ≠ GamePhase.attack_phase then s
  else if s.currentAttacker ≠ Who.player then s
  else
    let drawn := drawToHandSize s.player.taHand s.taDeck (s.player.taHand.length + 2) s.nextId
    let s1 := { s with
      player := { s.player with taHand := drawn.1 },
      taDeck := drawn.2.1,
      nextId := drawn.2.2,
      currentAttacker := Who.ai,
      turnNumber := s.turnNumber + 1,
      selectedCard := none,
      selectedAsset := none }
    executeAITurn o s1

/-- performCoinFlip of useGameState.  Guards: phase is coin_flip and a
difficulty has been chosen.  The oracle r is the Math.random draw as a
percentile: below 50 the player attacks first, otherwise the AI does and its full turn
runs immediately. -/
def performCoinFlip (r : Nat) (o : List IterRand) (s : GameState) : GameState :=
  if s.phase ≠ GamePhase.coin_flip then s
  else
    match s.difficulty with
    | none => s
    | some _ =>
      let result := if r < 50 then Who.player else Who.ai
      let s1 := { s with currentAttacker := result, phase := GamePhase.attack_phase }
      if result = Who.ai then executeAITurn o s1 else s1
theorem mem_of_getElem? {l : List α} {i : Nat} {a : α} (h : l[i]? = some a) : a ∈ l := by
  obtain ⟨hlt, rfl⟩ := List.getElem?_eq_some.mp h
  exact List.getElem_mem hlt

theorem count_decomp [DecidableEq α] (l : List α) (n : Nat) (h : n < l.length) (x : α) :
    l.count x = (l.take n).count x + (if l[n] = x then 1 else 0) + (l.drop (n+1)).count x := by
  conv_lhs => rw [← List.take_append_drop n l, List.drop_eq_getElem_cons h]
  rw [List.count_append, List.count_cons]
  simp only [beq_iff_eq]
  split_ifs <;> omega

theorem count_set_balance [DecidableEq α] (l : List α) (n : Nat) (b : α) (h : n < l.length)
    (x : α) :
    (l.set n b).count x + (if l[n] = x then 1 else 0) = l.count x + (if b = x then 1 else 0) := by
  have h2 : (l.set n b).count x =
      (l.take n).count x + (if b = x then 1 else 0) + (l.drop (n+1)).count x := by
    rw [List.set_eq_take_cons_drop b h, List.count_append, List.count_cons]
    simp only [beq_iff_eq]
    split_ifs <;> omega
  rw [h2, count_decomp l n h x]
  split_ifs <;> omega

theorem listSwap_perm [DecidableEq α] (l : List α) (i j : Nat) :
    List.Perm (listSwap l i j) l := by
  unfold listSwap
  cases hi : l[i]? with
  | none => exact List.Perm.refl l
  | some a =>
    cases hj : l[j]? with
    | none => exact List.Perm.refl l
    | some b =>
      dsimp only
      obtain ⟨hilt, ha⟩ := List.getElem?_eq_some.mp hi
      obtain ⟨hjlt, hb⟩ := List.getElem?_eq_some.mp hj
      rw [List.perm_iff_count]
      intro x
      have hjlt' : j < (l.set i b).length := by simpa using hjlt
      have e1 := count_set_balance (l.set i b) j a hjlt' x
      have e2 := count_set_balance l i b hilt x
      by_cases hij : i = j
      · subst hij
        have hbb : (l.set i b)[i] = b := List.getElem_set_self hjlt'
        rw [hbb] at e1
        rw [ha] at e2
        have hab : a = b := ha ▸ hb
        subst hab
        split_ifs at * <;> omega
      · have hsame : (l.set i b)[j] = l[j] := List.getElem_set_ne hij hjlt'
        rw [hsame] at e1
        rw [ha] at e2
        rw [hb] at e1
        split_ifs at * <;> omega

theorem fyAux_perm [DecidableEq α] (js : Nat → Nat) (l : List α) (i : Nat) :
    List.Perm (fyAux js l i) l := by
  induction i generalizing l with
  | zero => exact List.Perm.refl l
  | succ i ih =>
    exact (ih (listSwap l (i + 1) (js (i + 1) % (i + 2)))).trans
      (listSwap_perm l (i + 1) (js (i + 1) % (i + 2)))

theorem shuffle_perm [DecidableEq α] (js : Nat → Nat) (l : List α) :
    List.Perm (shuffle js l) l :=
  fyAux_perm js l (l.length - 1)

theorem drawToHandSize_cards (deck : List PlayableCard) (hand : List HandCard) (t nid : Nat) :
    (drawToHandSize hand deck t nid).1.map HandCard.card ++
      (drawToHandSize hand deck t nid).2.1 = hand.map HandCard.card ++ deck := by
  induction deck generalizing hand nid with
  | nil => simp [drawToHandSize]
  | cons c rest ih =>
    by_cases h : hand.length < t
    · rw [drawToHandSize, if_pos h]
      have := ih (hand ++ [⟨nid, c⟩]) (nid + 1)
      simpa using this
    · rw [drawToHandSize, if_neg h]

theorem drawToHandSize_length (deck : List PlayableCard) (hand : List HandCard) (k nid : Nat) :
    (drawToHandSize hand deck (hand.length + k) nid).1.length =
      hand.length + min k deck.length := by
  induction deck generalizing hand k nid with
  | nil => simp [drawToHandSize]
  | cons c rest ih =>
    cases k with
    | zero => rw [drawToHandSize, if_neg (by omega)]; simp
    | succ k =>
      rw [drawToHandSize, if_pos (by omega)]
      have h2 : hand.length + (k + 1) = (hand ++ [(⟨nid, c⟩ : HandCard)]).length + k := by
        simp; omega
      rw [h2]
      have h3 := ih (hand ++ [⟨nid, c⟩]) k (nid + 1)
      refine h3.trans ?_
      simp
      omega

theorem drawToHandSize_ids (deck : List PlayableCard) (hand : List HandCard) (t nid : Nat)
    (h1 : ∀ hc ∈ hand, hc.instanceId < nid)
    (h2 : (hand.map HandCard.instanceId).Nodup) :
    (∀ hc ∈ (drawToHandSize hand deck t nid).1,
      hc.instanceId < (drawToHandSize hand deck t nid).2.2) ∧
    ((drawToHandSize hand deck t nid).1.map HandCard.instanceId).Nodup ∧
    nid ≤ (drawToHandSize hand deck t nid).2.2 := by
  induction deck generalizing hand nid with
  | nil => exact ⟨fun hc hm => h1 hc hm, h2, Nat.le_refl nid⟩
  | cons c rest ih =>
    by_cases h : hand.length < t
    · rw [drawToHandSize, if_pos h]
      have h1' : ∀ hc ∈ hand ++ [(⟨nid, c⟩ : HandCard)], hc.instanceId < nid + 1 := by
        intro hc hm
        rcases List.mem_append.mp hm with hm | hm
        · exact Nat.lt_succ_of_lt (h1 hc hm)
        · simp at hm
          subst hm
          simp
      have h2' : ((hand ++ [(⟨nid, c⟩ : HandCard)]).map HandCard.instanceId).Nodup := by
        rw [List.map_append, List.nodup_append]
        refine ⟨h2, by simp, ?_⟩
        intro x hx
        simp only [List.map_cons, List.map_nil, List.mem_singleton]
        obtain ⟨hc, hm, rfl⟩ := List.mem_map.mp hx
        have := h1 hc hm
        simp
        omega
      obtain ⟨g1, g2, g3⟩ := ih (hand ++ [⟨nid, c⟩]) (nid + 1) h1' h2'
      exact ⟨g1, g2, Nat.le_trans (Nat.le_succ nid) g3⟩
    · rw [drawToHandSize, if_neg h]
      exact ⟨fun hc hm => h1 hc hm, h2, Nat.le_refl nid⟩
theorem hand_remove_perm (hand : List HandCard) (hc : HandCard)
    (hmem : hc ∈ hand) (hnodup : (hand.map HandCard.instanceId).Nodup) :
    List.Perm (hand.map HandCard.card)
      (hc.card :: (hand.filter
        (fun c => c.instanceId != hc.instanceId)).map HandCard.card) := by
  induction hand with
  | nil => cases hmem
  | cons h0 rest ih =>
    rw [List.map_cons, List.nodup_cons] at hnodup
    obtain ⟨hnotin, hrest⟩ := hnodup
    rcases List.mem_cons.mp hmem with rfl | hmem'
    · rw [List.filter_cons_of_neg (by simp)]
      have hdrop : rest.filter (fun c => c.instanceId != hc.instanceId) = rest := by
        refine List.filter_eq_self.mpr ?_
        intro x hx
        simp only [bne_iff_ne, ne_eq]
        intro heq
        exact hnotin (heq ▸ List.mem_map_of_mem HandCard.instanceId hx)
      rw [hdrop, List.map_cons]
    · have hne : h0.instanceId ≠ hc.instanceId := by
        intro heq
        exact hnotin (heq ▸ List.mem_map_of_mem HandCard.instanceId hmem')
      rw [List.filter_cons_of_pos (by simpa using hne), List.map_cons, List.map_cons]
      exact List.Perm.trans (List.Perm.cons h0.card (ih hmem' hrest))
        (List.Perm.swap hc.card h0.card _)
/-- The non-strict preference corresponding to the aiChooseTarget
comparator: a is no better a target than b. -/
def targetKeyLe (a b : CyberAsset) : Prop :=
  stateRank a.state < stateRank b.state ∨
    (stateRank a.state = stateRank b.state ∧ a.damageCount ≤ b.damageCount)

theorem targetKeyLe_refl (a : CyberAsset) : targetKeyLe a a := by
  simp [targetKeyLe]

theorem targetKeyLe_trans {a b c : CyberAsset} (h1 : targetKeyLe a b) (h2 : targetKeyLe b c) :
    targetKeyLe a c := by
  unfold targetKeyLe at *
  omega

theorem betterTarget_false {a b : CyberAsset} (h : betterTarget a b = false) :
    targetKeyLe a b := by
  simp [betterTarget] at h
  unfold targetKeyLe
  omega

theorem betterTarget_true {a b : CyberAsset} (h : betterTarget a b = true) :
    targetKeyLe b a := by
  simp [betterTarget] at h
  unfold targetKeyLe
  omega

theorem chooseTargetFold_spec (ts : List CyberAsset) (t : CyberAsset) :
    (ts.foldl (fun best a => if betterTarget a best then a else best) t) ∈ t :: ts ∧
    targetKeyLe t (ts.foldl (fun best a => if betterTarget a best then a else best) t) ∧
    ∀ a ∈ ts, targetKeyLe a (ts.foldl (fun best a => if betterTarget a best then a else best) t) := by
  induction ts generalizing t with
  | nil => exact ⟨List.mem_singleton_self t, targetKeyLe_refl t, by simp⟩
  | cons a ts ih =>
    rw [List.foldl_cons]
    by_cases h : betterTarget a t = true
    · rw [if_pos h]
      obtain ⟨m, le1, le2⟩ := ih a
      refine ⟨?_, targetKeyLe_trans (betterTarget_true h) le1, ?_⟩
      · rcases List.mem_cons.mp m with heq | m'
        · rw [heq]; exact List.mem_cons_of_mem _ (List.mem_cons_self _ _)
        · exact List.mem_cons_of_mem _ (List.mem_cons_of_mem _ m')
      · intro x hx
        rcases List.mem_cons.mp hx with rfl | hx'
        · exact le1
        · exact le2 x hx'
    · rw [if_neg h]
      obtain ⟨m, le1, le2⟩ := ih t
      refine ⟨?_, le1, ?_⟩
      · rcases List.mem_cons.mp m with heq | m'
        · rw [heq]; exact List.mem_cons_self _ _
        · exact List.mem_cons_of_mem _ (List.mem_cons_of_mem _ m')
      · intro x hx
        rcases List.mem_cons.mp hx with rfl | hx'
        · exact targetKeyLe_trans (betterTarget_false (by simpa using h)) le1
        · exact le2 x hx'

theorem pickHighestFold_spec (ts : List HandCard) (t : HandCard) :
    (ts.foldl (fun best a => if attackValue best < attackValue a then a else best) t) ∈ t :: ts ∧
    attackValue t ≤ attackValue (ts.foldl (fun best a => if attackValue best < attackValue a then a else best) t) ∧
    ∀ a ∈ ts, attackValue a ≤ attackValue (ts.foldl (fun best a => if attackValue best < attackValue a then a else best) t) := by
  induction ts generalizing t with
  | nil => exact ⟨List.mem_singleton_self t, Nat.le_refl _, by simp⟩
  | cons a ts ih =>
    rw [List.foldl_cons]
    by_cases h : attackValue t < attackValue a
    · rw [if_pos h]
      obtain ⟨m, le1, le2⟩ := ih a
      refine ⟨?_, Nat.le_trans (Nat.le_of_lt h) le1, ?_⟩
      · rcases List.mem_cons.mp m with heq | m'
        · rw [heq]; exact List.mem_cons_of_mem _ (List.mem_cons_self _ _)
        · exact List.mem_cons_of_mem _ (List.mem_cons_of_mem _ m')
      · intro x hx
        rcases List.mem_cons.mp hx with rfl | hx'
        · exact le1
        · exact le2 x hx'
    · rw [if_neg h]
      obtain ⟨m, le1, le2⟩ := ih t
      refine ⟨?_, le1, ?_⟩
      · rcases List.mem_cons.mp m with heq | m'
        · rw [heq]; exact List.mem_cons_self _ _
        · exact List.mem_cons_of_mem _ (List.mem_cons_of_mem _ m')
      · intro x hx
        rcases List.mem_cons.mp hx with rfl | hx'
        · exact Nat.le_trans (Nat.le_of_not_lt h) le1
        · exact le2 x hx'

theorem pickHighestValue_mem {l : List HandCard} {c : HandCard}
    (h : pickHighestValue l = some c) : c ∈ l := by
  cases l with
  | nil => cases h
  | cons t ts =>
    rw [pickHighestValue] at h
    obtain ⟨m, _, _⟩ := pickHighestFold_spec ts t
    cases h
    exact m

theorem getRandomElement_mem {l : List α} {c : α} (r : Nat)
    (h : getRandomElement r l = some c) : c ∈ l := by
  unfold getRandomElement at h
  by_cases he : l.isEmpty
  · rw [if_pos he] at h; cases h
  · rw [if_neg he] at h
    exact mem_of_getElem? h

theorem head?_mem {l : List α} {c : α} (h : l.head? = some c) : c ∈ l := by
  cases l with
  | nil => cases h
  | cons a l =>
    simp only [List.head?_cons, Option.some.injEq] at h
    rw [← h]
    exact List.mem_cons_self a l
theorem aiChooseTarget_none_iff (assets : List CyberAsset) :
    aiChooseTarget assets = none ↔ ∀ a ∈ assets, a.state = AssetState.destroyed := by
  unfold aiChooseTarget
  cases hf : assets.filter (fun a => a.state != AssetState.destroyed) with
  | nil =>
    simp only [true_iff]
    intro a ha
    have := List.filter_eq_nil_iff.mp hf a ha
    simpa using this
  | cons t ts =>
    simp only [reduceCtorEq, false_iff, not_forall]
    have ht : t ∈ assets.filter (fun a => a.state != AssetState.destroyed) := by
      rw [hf]; exact List.mem_cons_self t ts
    have ⟨hmem, hpred⟩ := List.mem_filter.mp ht
    exact ⟨t, hmem, by simpa using hpred⟩

theorem aiChooseTarget_some_spec {assets : List CyberAsset} {t : CyberAsset}
    (h : aiChooseTarget assets = some t) :
    t ∈ assets ∧ t.state ≠ AssetState.destroyed ∧
      ∀ a ∈ assets, a.state ≠ AssetState.destroyed → targetKeyLe a t := by
  unfold aiChooseTarget at h
  cases hf : assets.filter (fun a => a.state != AssetState.destroyed) with
  | nil => rw [hf] at h; cases h
  | cons t0 ts =>
    rw [hf] at h
    simp only [Option.some.injEq] at h
    obtain ⟨m, le1, le2⟩ := chooseTargetFold_spec ts t0
    rw [h] at m le1 le2
    have hm : t ∈ assets.filter (fun a => a.state != AssetState.destroyed) := by
      rw [hf]; exact m
    have ⟨hmem, hpred⟩ := List.mem_filter.mp hm
    refine ⟨hmem, by simpa using hpred, ?_⟩
    intro a ha hnd
    have haf : a ∈ assets.filter (fun a => a.state != AssetState.destroyed) :=
      List.mem_filter.mpr ⟨ha, by simpa using hnd⟩
    rw [hf] at haf
    rcases List.mem_cons.mp haf with heq | hts
    · rw [heq]; exact le1
    · exact le2 a hts

theorem aiChooseAttackCard_mem {taHand defenderDcHand : List HandCard}
    {difficulty : Difficulty} {r : Nat} {c : HandCard}
    (h : aiChooseAttackCard taHand defenderDcHand difficulty r = some c) : c ∈ taHand := by
  unfold aiChooseAttackCard at h
  by_cases he : taHand.isEmpty
  · rw [if_pos he] at h; cases h
  · rw [if_neg he] at h
    set taCards := taHand.filter (fun hc => hc.card.category == CardCategory.threat_agent) with hta
    set jokerCards := taHand.filter (fun hc => hc.card.category == CardCategory.joker) with hjk
    set usable := if !taCards.isEmpty then taCards else jokerCards with hus
    have husub : ∀ x ∈ usable, x ∈ taHand := by
      intro x hx
      rw [hus] at hx
      by_cases h1 : !taCards.isEmpty
      · rw [if_pos h1] at hx
        exact List.mem_of_mem_filter hx
      · rw [if_neg h1] at hx
        exact List.mem_of_mem_filter hx
    cases difficulty with
    | easy =>
      dsimp only at h
      rw [← hus] at h
      cases hg : getRandomElement r usable with
      | some x =>
        rw [hg] at h
        have hx : some x = some c := h
        have hxc : x = c := Option.some.inj hx
        rw [← hxc]
        exact husub x (getRandomElement_mem r hg)
      | none =>
        rw [hg] at h
        have hh : usable.head? = some c := h
        exact husub c (head?_mem hh)
    | hard =>
      dsimp only at h
      rw [← hus] at h
      by_cases h1 : !(usable.filter (fun att =>
          !(defenderDcHand.map (fun hc => hc.card)).any (fun d => canDefend att.card d))).isEmpty
      · rw [if_pos h1] at h
        exact husub c (List.mem_of_mem_filter (pickHighestValue_mem h))
      · rw [if_neg h1] at h
        by_cases h2 : !(usable.filter (fun att =>
            att.card.category == CardCategory.threat_agent &&
              !(((defenderDcHand.map (fun hc => hc.card)).filter
                  (fun c => c.category == CardCategory.defense_control)).map
                PlayableCard.value).contains att.card.value)).isEmpty
        · rw [if_pos h2] at h
          exact husub c (List.mem_of_mem_filter (pickHighestValue_mem h))
        · rw [if_neg h2] at h
          exact husub c (pickHighestValue_mem h)
    | brutal =>
      dsimp only at h
      rw [← hus] at h
      by_cases h1 : !(usable.filter (fun att =>
          !(defenderDcHand.map (fun hc => hc.card)).any (fun d => canDefend att.card d))).isEmpty
      · rw [if_pos h1] at h
        exact husub c (List.mem_of_mem_filter (pickHighestValue_mem h))
      · rw [if_neg h1] at h
        by_cases h2 : !(usable.filter (fun att =>
            att.card.category == CardCategory.threat_agent &&
              !(((defenderDcHand.map (fun hc => hc.card)).filter
                  (fun c => c.category == CardCategory.defense_control)).map
                PlayableCard.value).contains att.card.value)).isEmpty
        · rw [if_pos h2] at h
          exact husub c (List.mem_of_mem_filter (pickHighestValue_mem h))
        · rw [if_neg h2] at h
          exact husub c (pickHighestValue_mem h)

theorem aiChooseDefense_mem {dcHand : List HandCard} {attackCard : PlayableCard}
    {difficulty : Difficulty} {r : Nat} {d : HandCard}
    (h : aiChooseDefense dcHand attackCard difficulty r = some d) :
    d ∈ dcHand ∧ canDefend attackCard d.card = true := by
  unfold aiChooseDefense at h
  by_cases he : dcHand.isEmpty
  · rw [if_pos he] at h; cases h
  · rw [if_neg he] at h
    set valid := dcHand.filter (fun hc => canDefend attackCard hc.card) with hv
    by_cases h1 : valid.isEmpty
    · rw [if_pos h1] at h; cases h
    · rw [if_neg h1] at h
      by_cases h2 : !(r < defendChance difficulty)
      · rw [if_pos h2] at h; cases h
      · rw [if_neg h2] at h
        have hvmem : ∀ x ∈ valid, x ∈ dcHand ∧ canDefend attackCard x.card = true := by
          intro x hx
          rw [hv] at hx
          exact ⟨List.mem_of_mem_filter hx, by simpa using (List.mem_filter.mp hx).2⟩
        by_cases h3 : !(valid.filter (fun hc => hc.card.category != CardCategory.joker)).isEmpty
        · rw [if_pos h3] at h
          exact hvmem d (List.mem_of_mem_filter (head?_mem h))
        · rw [if_neg h3] at h
          exact hvmem d (List.mem_of_find?_eq_some h)
/-- The attack-side card zone: draw pile, both attack hands, and both
attack discards, in a fixed order. -/
def taZone (s : GameState) : List PlayableCard :=
  s.taDeck ++ s.player.taHand.map HandCard.card ++ s.ai.taHand.map HandCard.card ++
    s.player.taDiscard ++ s.ai.taDiscard

/-- The defense-side card zone: draw pile, both defense hands, and both
defense discards. -/
def dcZone (s : GameState) : List PlayableCard :=
  s.dcDeck ++ s.player.dcHand.map HandCard.card ++ s.ai.dcHand.map HandCard.card ++
    s.player.dcDiscard ++ s.ai.dcDiscard

/-- All attack-side cards a game ever owns: the generated Threat Agent
cards plus the first joker. -/
def fullTaZone : List PlayableCard :=
  generateFullDeck.taCards ++ [PlayableCard.joker JokerType.black]

/-- All defense-side cards a game ever owns: the generated Defense Control
cards plus the second joker. -/
def fullDcZone : List PlayableCard :=
  generateFullDeck.dcCards ++ [PlayableCard.joker JokerType.red]

/-- Well-formedness of a hand relative to the instance-id counter: ids are
pairwise distinct and below the counter. -/
def handIdsOk (hand : List HandCard) (nid : Nat) : Prop :=
  (hand.map HandCard.instanceId).Nodup ∧ ∀ hc ∈ hand, hc.instanceId < nid

/-- The index of a lifecycle state in the order facedown, revealed,
rotated, destroyed (the numbering used by the specification). -/
def lifecycleIdx : AssetState → Nat
  | AssetState.facedown => 0
  | AssetState.revealed => 1
  | AssetState.rotated => 2
  | AssetState.destroyed => 3

/-- Damage-counter coherence of an asset list: every asset state index
equals its damage counter saturated at 3. -/
def assetIdxOk (assets : List CyberAsset) : Prop :=
  ∀ a ∈ assets, lifecycleIdx a.state = min a.damageCount 3

/-- The state invariant maintained by every reachable game state. -/
structure GameInv (s : GameState) : Prop where
  taPerm : List.Perm (taZone s) fullTaZone
  dcPerm : List.Perm (dcZone s) fullDcZone
  pTaIds : handIdsOk s.player.taHand s.nextId
  pDcIds : handIdsOk s.player.dcHand s.nextId
  aTaIds : handIdsOk s.ai.taHand s.nextId
  aDcIds : handIdsOk s.ai.dcHand s.nextId
  pAssetIds : (s.player.assets.map CyberAsset.instanceId).Nodup
  aAssetIds : (s.ai.assets.map CyberAsset.instanceId).Nodup
  selCardOk : ∀ c, s.selectedCard = some c → c ∈ s.player.taHand
  selAssetOk : ∀ a, s.selectedAsset = some a → a ∈ s.ai.assets
  pIdx : assetIdxOk s.player.assets
  aIdx : assetIdxOk s.ai.assets

/-- Evolution order on a single asset across operations: identity and card
are stable, the lifecycle index and damage counter never decrease, and
destroyed is absorbing. -/
def assetLe (a b : CyberAsset) : Prop :=
  b.instanceId = a.instanceId ∧ b.card = a.card ∧
    lifecycleIdx a.state ≤ lifecycleIdx b.state ∧ a.damageCount ≤ b.damageCount ∧
    (a.state = AssetState.destroyed → b.state = AssetState.destroyed)

/-- Pointwise evolution of an asset list. -/
def assetsLe (l l' : List CyberAsset) : Prop := List.Forall₂ assetLe l l'

theorem assetLe_refl (a : CyberAsset) : assetLe a a := by
  simp [assetLe]

theorem assetLe_trans {a b c : CyberAsset} (h1 : assetLe a b) (h2 : assetLe b c) :
    assetLe a c := by
  obtain ⟨i1, c1, l1, d1, z1⟩ := h1
  obtain ⟨i2, c2, l2, d2, z2⟩ := h2
  exact ⟨i2.trans i1, c2.trans c1, l1.trans l2, d1.trans d2, fun h => z2 (z1 h)⟩

theorem assetsLe_refl (l : List CyberAsset) : assetsLe l l := by
  induction l with
  | nil => exact List.Forall₂.nil
  | cons a l ih => exact List.Forall₂.cons (assetLe_refl a) ih

theorem assetsLe_trans {l₁ l₂ l₃ : List CyberAsset}
    (h1 : assetsLe l₁ l₂) (h2 : assetsLe l₂ l₃) : assetsLe l₁ l₃ := by
  induction h1 generalizing l₃ with
  | nil => cases h2; exact List.Forall₂.nil
  | cons hab h ih =>
    cases h2 with
    | cons hbc h' => exact List.Forall₂.cons (assetLe_trans hab hbc) (ih h')

theorem lifecycleIdx_getNext (st : AssetState) :
    lifecycleIdx (getNextAssetState st) = min (lifecycleIdx st + 1) 3 := by
  cases st <;> rfl

theorem getNext_destroyed : getNextAssetState AssetState.destroyed = AssetState.destroyed := rfl

theorem lifecycleIdx_le_getNext (st : AssetState) :
    lifecycleIdx st ≤ lifecycleIdx (getNextAssetState st) := by
  cases st <;> simp [lifecycleIdx, getNextAssetState]

/-- The state transitions of the engine as invoked by the driving UI
layer: selections refer to a card of the player attack hand or an asset of
the AI board (the values the presentation layer passes), and the oracle
arguments of each operation are arbitrary. -/
inductive Step : GameState → GameState → Prop
  | selCard (s : GameState) (c : HandCard) (h : c ∈ s.player.taHand) :
      Step s (selectCard (some c) s)
  | clearCard (s : GameState) : Step s (selectCard none s)
  | selAsset (s : GameState) (a : CyberAsset) (h : a ∈ s.ai.assets) :
      Step s (selectAsset (some a) s)
  | clearAsset (s : GameState) : Step s (selectAsset none s)
  | pickDifficulty (s : GameState) (d : Difficulty) : Step s (setDifficulty d s)
  | coinFlip (s : GameState) (r : Nat) (o : List IterRand) : Step s (performCoinFlip r o s)
  | attack (s : GameState) (r : Nat) : Step s (playerAttack r s)
  | turnEnd (s : GameState) (o : List IterRand) : Step s (endTurn o s)

/-- The states reachable from a freshly generated game through the exposed
operations. -/
inductive Reachable : GameState → Prop
  | init (o : InitRand) : Reachable (initGame o)
  | step {s s' : GameState} : Reachable s → Step s s' → Reachable s'
theorem handIdsOk_mono {hand : List HandCard} {n n' : Nat}
    (h : handIdsOk hand n) (hle : n ≤ n') : handIdsOk hand n' :=
  ⟨h.1, fun hc hm => Nat.lt_of_lt_of_le (h.2 hc hm) hle⟩

theorem handIdsOk_filter {hand : List HandCard} {n : Nat} (p : HandCard → Bool)
    (h : handIdsOk hand n) : handIdsOk (hand.filter p) n := by
  refine ⟨?_, fun hc hm => h.2 hc (List.mem_of_mem_filter hm)⟩
  exact h.1.sublist ((List.filter_sublist hand).map HandCard.instanceId)

theorem hand_remove_count (hand : List HandCard) (hc : HandCard)
    (hmem : hc ∈ hand) (hnodup : (hand.map HandCard.instanceId).Nodup) (x : PlayableCard) :
    (hand.map HandCard.card).count x =
      (if hc.card = x then 1 else 0) +
        ((hand.filter (fun c => c.instanceId != hc.instanceId)).map HandCard.card).count x := by
  have hp := (hand_remove_perm hand hc hmem hnodup).count_eq x
  rw [List.count_cons] at hp
  rw [hp]
  simp only [beq_iff_eq]
  split_ifs <;> omega

theorem drawToHandSize_count (deck : List PlayableCard) (hand : List HandCard) (t nid : Nat)
    (x : PlayableCard) :
    ((drawToHandSize hand deck t nid).1.map HandCard.card).count x +
        (drawToHandSize hand deck t nid).2.1.count x =
      (hand.map HandCard.card).count x + deck.count x := by
  have := congrArg (fun l => l.count x) (drawToHandSize_cards deck hand t nid)
  simpa [List.count_append] using this

theorem drawToHandSize_idsOk (hand : List HandCard) (deck : List PlayableCard) (t nid : Nat)
    (h : handIdsOk hand nid) :
    handIdsOk (drawToHandSize hand deck t nid).1 (drawToHandSize hand deck t nid).2.2 ∧
      nid ≤ (drawToHandSize hand deck t nid).2.2 := by
  obtain ⟨g1, g2, g3⟩ := drawToHandSize_ids deck hand t nid h.2 h.1
  exact ⟨⟨g2, g1⟩, g3⟩

theorem mem_id_unique {l : List CyberAsset} (hnodup : (l.map CyberAsset.instanceId).Nodup)
    {a b : CyberAsset} (ha : a ∈ l) (hb : b ∈ l) (hid : b.instanceId = a.instanceId) : b = a := by
  induction l with
  | nil => cases ha
  | cons h0 rest ih =>
    rw [List.map_cons, List.nodup_cons] at hnodup
    obtain ⟨hnotin, hrest⟩ := hnodup
    rcases List.mem_cons.mp ha with rfl | ha' <;> rcases List.mem_cons.mp hb with hb' | hb'
    · exact hb'
    · exact absurd (hid ▸ List.mem_map_of_mem CyberAsset.instanceId hb') hnotin
    · rw [hb'] at hid
      exact absurd (hid.symm ▸ List.mem_map_of_mem CyberAsset.instanceId ha') hnotin
    · exact ih hrest ha' hb'

theorem damageAssetAt_ids (l : List CyberAsset) (tid : Nat) (st : AssetState) :
    (damageAssetAt l tid st).map CyberAsset.instanceId = l.map CyberAsset.instanceId := by
  induction l with
  | nil => rfl
  | cons a rest ih =>
    rw [damageAssetAt]
    by_cases h : a.instanceId = tid
    · rw [if_pos h]
      simp
    · rw [if_neg h, List.map_cons, List.map_cons, ih]

theorem damageAssetAt_le {l : List CyberAsset} {tid : Nat} {st : AssetState}
    (hsnap : ∀ b ∈ l, b.instanceId = tid → b.state = st) :
    assetsLe l (damageAssetAt l tid st) := by
  induction l with
  | nil => exact List.Forall₂.nil
  | cons a rest ih =>
    rw [damageAssetAt]
    by_cases h : a.instanceId = tid
    · rw [if_pos h]
      have hst : a.state = st := hsnap a (List.mem_cons_self a rest) h
      refine List.Forall₂.cons ?_ (assetsLe_refl rest)
      refine ⟨rfl, rfl, ?_, Nat.le_succ _, ?_⟩
      · rw [← hst]
        exact lifecycleIdx_le_getNext a.state
      · intro hd
        rw [← hst, hd]
        rfl
    · rw [if_neg h]
      exact List.Forall₂.cons (assetLe_refl a)
        (ih (fun b hm hidb => hsnap b (List.mem_cons_of_mem a hm) hidb))

theorem damageAssetAt_idxOk {l : List CyberAsset} {tid : Nat} {st : AssetState}
    (hsnap : ∀ b ∈ l, b.instanceId = tid → b.state = st)
    (h : assetIdxOk l) : assetIdxOk (damageAssetAt l tid st) := by
  induction l with
  | nil => intro a ha; cases ha
  | cons a rest ih =>
    rw [damageAssetAt]
    by_cases hid : a.instanceId = tid
    · rw [if_pos hid]
      intro b hb
      rcases List.mem_cons.mp hb with rfl | hb'
      · have hst : a.state = st := hsnap a (List.mem_cons_self a rest) hid
        have ha := h a (List.mem_cons_self a rest)
        simp only
        rw [← hst, lifecycleIdx_getNext, ha]
        omega
      · exact h b (List.mem_cons_of_mem a hb')
    · rw [if_neg hid]
      intro b hb
      rcases List.mem_cons.mp hb with rfl | hb'
      · exact h b (List.mem_cons_self b rest)
      · exact ih (fun x hm hx => hsnap x (List.mem_cons_of_mem a hm) hx)
          (fun x hm => h x (List.mem_cons_of_mem a hm)) b hb'

theorem damageAssetAt_states {l : List CyberAsset} {tid : Nat} {st : AssetState} :
    List.Forall₂ (fun b b' => b'.state = getNextAssetState st ∨ b' = b)
      l (damageAssetAt l tid st) := by
  induction l with
  | nil => exact List.Forall₂.nil
  | cons a rest ih =>
    rw [damageAssetAt]
    by_cases h : a.instanceId = tid
    · rw [if_pos h]
      refine List.Forall₂.cons (Or.inl rfl) ?_
      clear ih
      induction rest with
      | nil => exact List.Forall₂.nil
      | cons c cs ihc => exact List.Forall₂.cons (Or.inr rfl) ihc
    · rw [if_neg h]
      exact List.Forall₂.cons (Or.inr rfl) ih
theorem gameInv_phase {s : GameState} (p : GamePhase) (h : GameInv s) :
    GameInv { s with phase := p } := by
  obtain ⟨f1, f2, f3, f4, f5, f6, f7, f8, f9, f10, f11, f12⟩ := h
  exact ⟨f1, f2, f3, f4, f5, f6, f7, f8, f9, f10, f11, f12⟩

theorem winStep {P A : List CyberAsset} {t : GameState} (hInv : GameInv t)
    (hP : assetsLe P t.player.assets) (hA : assetsLe A t.ai.assets) :
    GameInv (match getWinReason t with | some w => { t with phase := w } | none => t) ∧
      assetsLe P
        (match getWinReason t with
          | some w => { t with phase := w } | none => t).player.assets ∧
      assetsLe A
        (match getWinReason t with
          | some w => { t with phase := w } | none => t).ai.assets := by
  cases getWinReason t with
  | none => exact ⟨hInv, hP, hA⟩
  | some w => exact ⟨gameInv_phase w hInv, hP, hA⟩

theorem playerAttack_preserves (r : Nat) {s : GameState} (h : GameInv s) :
    GameInv (playerAttack r s) ∧
      assetsLe s.player.assets (playerAttack r s).player.assets ∧
      assetsLe s.ai.assets (playerAttack r s).ai.assets := by
  unfold playerAttack
  cases hc : s.selectedCard with
  | none => exact ⟨h, assetsLe_refl _, assetsLe_refl _⟩
  | some c =>
    cases ha : s.selectedAsset with
    | none => exact ⟨h, assetsLe_refl _, assetsLe_refl _⟩
    | some a =>
      dsimp only
      by_cases hph : s.phase ≠ GamePhase.attack_phase
      · rw [if_pos hph]; exact ⟨h, assetsLe_refl _, assetsLe_refl _⟩
      rw [if_neg hph]
      by_cases hat : s.currentAttacker ≠ Who.player
      · rw [if_pos hat]; exact ⟨h, assetsLe_refl _, assetsLe_refl _⟩
      rw [if_neg hat]
      have hcmem : c ∈ s.player.taHand := h.selCardOk c hc
      have hamem : a ∈ s.ai.assets := h.selAssetOk a ha
      cases hdec : aiChooseDefense s.ai.dcHand c.card (s.difficulty.getD Difficulty.hard) r with
      | some d =>
        dsimp only
        have hdmem : d ∈ s.ai.dcHand := (aiChooseDefense_mem hdec).1
        have hdraw := drawToHandSize_idsOk
          (s.ai.dcHand.filter (fun x => x.instanceId != d.instanceId)) s.dcDeck
          ((s.ai.dcHand.filter (fun x => x.instanceId != d.instanceId)).length + 2)
          s.nextId (handIdsOk_filter _ h.aDcIds)
        refine winStep ⟨?_, ?_, ?_, ?_, ?_, ?_, ?_, ?_, ?_, ?_, ?_, ?_⟩
          (assetsLe_refl _) (assetsLe_refl _)
        · refine List.Perm.trans ?_ h.taPerm
          rw [List.perm_iff_count]
          intro x
          have hrm := hand_remove_count s.player.taHand c hcmem h.pTaIds.1 x
          simp only [taZone, List.count_append]
          simp only [List.count_singleton, List.count_cons, List.count_nil, beq_iff_eq]
          split_ifs at * <;> omega
        · refine List.Perm.trans ?_ h.dcPerm
          rw [List.perm_iff_count]
          intro x
          have hrm := hand_remove_count s.ai.dcHand d hdmem h.aDcIds.1 x
          have hdc := drawToHandSize_count s.dcDeck
            (s.ai.dcHand.filter (fun x => x.instanceId != d.instanceId))
            ((s.ai.dcHand.filter (fun x => x.instanceId != d.instanceId)).length + 2)
            s.nextId x
          simp only [dcZone, List.count_append]
          simp only [List.count_singleton, List.count_cons, List.count_nil, beq_iff_eq]
          split_ifs at * <;> omega
        · exact handIdsOk_mono (handIdsOk_filter _ h.pTaIds) hdraw.2
        · exact handIdsOk_mono h.pDcIds hdraw.2
        · exact handIdsOk_mono h.aTaIds hdraw.2
        · exact hdraw.1
        · exact h.pAssetIds
        · exact h.aAssetIds
        · intro x hx; cases hx
        · intro x hx; cases hx
        · exact h.pIdx
        · exact h.aIdx
      | none =>
        dsimp only
        have hsnap : ∀ b ∈ s.ai.assets, b.instanceId = a.instanceId → b.state = a.state :=
          fun b hb hid => by rw [mem_id_unique h.aAssetIds hamem hb hid]
        refine winStep ⟨?_, ?_, ?_, ?_, ?_, ?_, ?_, ?_, ?_, ?_, ?_, ?_⟩
          (assetsLe_refl _) (damageAssetAt_le hsnap)
        · refine List.Perm.trans ?_ h.taPerm
          rw [List.perm_iff_count]
          intro x
          have hrm := hand_remove_count s.player.taHand c hcmem h.pTaIds.1 x
          simp only [taZone, List.count_append]
          simp only [List.count_singleton, List.count_cons, List.count_nil, beq_iff_eq]
          split_ifs at * <;> omega
        · exact h.dcPerm
        · exact handIdsOk_filter _ h.pTaIds
        · exact h.pDcIds
        · exact h.aTaIds
        · exact h.aDcIds
        · exact h.pAssetIds
        · show ((damageAssetAt s.ai.assets a.instanceId a.state).map CyberAsset.instanceId).Nodup
          rw [damageAssetAt_ids]
          exact h.aAssetIds
        · intro x hx; cases hx
        · intro x hx; cases hx
        · exact h.pIdx
        · exact damageAssetAt_idxOk hsnap h.aIdx
theorem winStep2 {P A : List CyberAsset} {t : GameState} (hInv : GameInv t)
    (hP : assetsLe P t.player.assets) (hA : assetsLe A t.ai.assets) :
    GameInv (if checkWinCondition t ≠ GamePhase.attack_phase ∧
        checkWinCondition t ≠ GamePhase.defense_phase
      then { t with phase := checkWinCondition t } else t) ∧
    assetsLe P (if checkWinCondition t ≠ GamePhase.attack_phase ∧
        checkWinCondition t ≠ GamePhase.defense_phase
      then { t with phase := checkWinCondition t } else t).player.assets ∧
    assetsLe A (if checkWinCondition t ≠ GamePhase.attack_phase ∧
        checkWinCondition t ≠ GamePhase.defense_phase
      then { t with phase := checkWinCondition t } else t).ai.assets := by
  split_ifs with hw
  · exact ⟨gameInv_phase _ hInv, hP, hA⟩
  · exact ⟨hInv, hP, hA⟩

theorem aiLoop_preserves (o : List IterRand) {s : GameState} (h : GameInv s) :
    GameInv (aiLoop o s) ∧
      assetsLe s.player.assets (aiLoop o s).player.assets ∧
      assetsLe s.ai.assets (aiLoop o s).ai.assets := by
  induction o generalizing s with
  | nil => exact ⟨h, assetsLe_refl _, assetsLe_refl _⟩
  | cons rr rest ih =>
    rw [aiLoop]
    by_cases hph : s.phase ≠ GamePhase.attack_phase
    · rw [if_pos hph]; exact ⟨h, assetsLe_refl _, assetsLe_refl _⟩
    rw [if_neg hph]
    cases htgt : aiChooseTarget s.player.assets with
    | none => exact ⟨h, assetsLe_refl _, assetsLe_refl _⟩
    | some target =>
      cases hcard : aiChooseAttackCard s.ai.taHand s.player.dcHand
          (s.difficulty.getD Difficulty.hard) rr.rAttack with
      | none => exact ⟨h, assetsLe_refl _, assetsLe_refl _⟩
      | some ac =>
        dsimp only
        have hacmem : ac ∈ s.ai.taHand := aiChooseAttackCard_mem hcard
        cases hdef : s.player.dcHand.find? (fun hc => canDefend ac.card hc.card) with
        | some pd =>
          dsimp only
          have hpdmem : pd ∈ s.player.dcHand := List.mem_of_find?_eq_some hdef
          have hdraw := drawToHandSize_idsOk
            (s.player.dcHand.filter (fun x => x.instanceId != pd.instanceId)) s.dcDeck
            ((s.player.dcHand.filter (fun x => x.instanceId != pd.instanceId)).length + 2)
            s.nextId (handIdsOk_filter _ h.pDcIds)
          refine winStep2 ⟨?_, ?_, ?_, ?_, ?_, ?_, ?_, ?_, ?_, ?_, ?_, ?_⟩
            (assetsLe_refl _) (assetsLe_refl _)
          · refine List.Perm.trans ?_ h.taPerm
            rw [List.perm_iff_count]
            intro x
            have hrm := hand_remove_count s.ai.taHand ac hacmem h.aTaIds.1 x
            simp only [taZone, List.count_append]
            simp only [List.count_singleton, List.count_cons, List.count_nil, beq_iff_eq]
            split_ifs at * <;> omega
          · refine List.Perm.trans ?_ h.dcPerm
            rw [List.perm_iff_count]
            intro x
            have hrm := hand_remove_count s.player.dcHand pd hpdmem h.pDcIds.1 x
            have hdc := drawToHandSize_count s.dcDeck
              (s.player.dcHand.filter (fun x => x.instanceId != pd.instanceId))
              ((s.player.dcHand.filter (fun x => x.instanceId != pd.instanceId)).length + 2)
              s.nextId x
            simp only [dcZone, List.count_append]
            simp only [List.count_singleton, List.count_cons, List.count_nil, beq_iff_eq]
            split_ifs at * <;> omega
          · exact handIdsOk_mono h.pTaIds hdraw.2
          · exact hdraw.1
          · exact handIdsOk_mono (handIdsOk_filter _ h.aTaIds) hdraw.2
          · exact handIdsOk_mono h.aDcIds hdraw.2
          · exact h.pAssetIds
          · exact h.aAssetIds
          · intro x hx
            exact h.selCardOk x hx
          · intro x hx
            exact h.selAssetOk x hx
          · exact h.pIdx
          · exact h.aIdx
        | none =>
          dsimp only
          have htspec := aiChooseTarget_some_spec htgt
          have hsnap : ∀ b ∈ s.player.assets,
              b.instanceId = target.instanceId → b.state = target.state :=
            fun b hb hid => by rw [mem_id_unique h.pAssetIds htspec.1 hb hid]
          have keyInv : GameInv { s with
              attackState := some ⟨target, ac, stageOf target.state,
                (match s.attackState with | some a => a.attacksThisRound | none => 0) + 1⟩,
              player := { s.player with
                assets := damageAssetAt s.player.assets target.instanceId target.state },
              ai := { s.ai with
                taHand := s.ai.taHand.filter (fun x => x.instanceId != ac.instanceId),
                taDiscard := s.ai.taDiscard ++ [ac.card] } } := by
            refine ⟨?_, ?_, ?_, ?_, ?_, ?_, ?_, ?_, ?_, ?_, ?_, ?_⟩
            · refine List.Perm.trans ?_ h.taPerm
              rw [List.perm_iff_count]
              intro x
              have hrm := hand_remove_count s.ai.taHand ac hacmem h.aTaIds.1 x
              simp only [taZone, List.count_append]
              simp only [List.count_singleton, List.count_cons, List.count_nil, beq_iff_eq]
              split_ifs at * <;> omega
            · exact h.dcPerm
            · exact h.pTaIds
            · exact h.pDcIds
            · exact handIdsOk_filter _ h.aTaIds
            · exact h.aDcIds
            · show ((damageAssetAt s.player.assets target.instanceId
                  target.state).map CyberAsset.instanceId).Nodup
              rw [damageAssetAt_ids]
              exact h.pAssetIds
            · exact h.aAssetIds
            · intro x hx
              exact h.selCardOk x hx
            · intro x hx
              exact h.selAssetOk x hx
            · exact damageAssetAt_idxOk hsnap h.pIdx
            · exact h.aIdx
          by_cases hwc : checkWinCondition { s with
              attackState := some ⟨target, ac, stageOf target.state,
                (match s.attackState with | some a => a.attacksThisRound | none => 0) + 1⟩,
              player := { s.player with
                assets := damageAssetAt s.player.assets target.instanceId target.state },
              ai := { s.ai with
                taHand := s.ai.taHand.filter (fun x => x.instanceId != ac.instanceId),
                taDiscard := s.ai.taDiscard ++ [ac.card] } } ≠ GamePhase.attack_phase ∧
            checkWinCondition { s with
              attackState := some ⟨target, ac, stageOf target.state,
                (match s.attackState with | some a => a.attacksThisRound | none => 0) + 1⟩,
              player := { s.player with
                assets := damageAssetAt s.player.assets target.instanceId target.state },
              ai := { s.ai with
                taHand := s.ai.taHand.filter (fun x => x.instanceId != ac.instanceId),
                taDiscard := s.ai.taDiscard ++ [ac.card] } } ≠ GamePhase.defense_phase
          · rw [if_pos hwc]
            exact ⟨gameInv_phase _ keyInv, damageAssetAt_le hsnap, assetsLe_refl _⟩
          · rw [if_neg hwc]
            by_cases hcont : aiDecideContinueOrEnd
                (s.ai.taHand.filter (fun x => x.instanceId != ac.instanceId))
                (damageAssetAt s.player.assets target.instanceId target.state)
                (s.difficulty.getD Difficulty.hard) rr.rCont = true
            · rw [if_pos hcont]
              obtain ⟨ih1, ih2, ih3⟩ := ih keyInv
              exact ⟨ih1, assetsLe_trans (damageAssetAt_le hsnap) ih2,
                assetsLe_trans (assetsLe_refl _) ih3⟩
            · rw [if_neg hcont]
              exact ⟨keyInv, damageAssetAt_le hsnap, assetsLe_refl _⟩

theorem executeAITurn_preserves (o : List IterRand) {s : GameState} (h : GameInv s) :
    GameInv (executeAITurn o s) ∧
      assetsLe s.player.assets (executeAITurn o s).player.assets ∧
      assetsLe s.ai.assets (executeAITurn o s).ai.assets := by
  obtain ⟨h1, h2, h3⟩ := aiLoop_preserves o h
  unfold executeAITurn
  by_cases hph : (aiLoop o s).phase = GamePhase.attack_phase
  · rw [if_pos hph]
    have hdraw := drawToHandSize_idsOk (aiLoop o s).ai.taHand
      (aiLoop o s).taDeck ((aiLoop o s).ai.taHand.length + 2) (aiLoop o s).nextId
      h1.aTaIds
    refine ⟨⟨?_, ?_, ?_, ?_, ?_, ?_, ?_, ?_, ?_, ?_, ?_, ?_⟩, h2, h3⟩
    · refine List.Perm.trans ?_ h1.taPerm
      rw [List.perm_iff_count]
      intro x
      have hdc := drawToHandSize_count (aiLoop o s).taDeck (aiLoop o s).ai.taHand
        ((aiLoop o s).ai.taHand.length + 2) (aiLoop o s).nextId x
      simp only [taZone, List.count_append]
      omega
    · exact h1.dcPerm
    · exact handIdsOk_mono h1.pTaIds hdraw.2
    · exact handIdsOk_mono h1.pDcIds hdraw.2
    · exact hdraw.1
    · exact handIdsOk_mono h1.aDcIds hdraw.2
    · exact h1.pAssetIds
    · exact h1.aAssetIds
    · intro x hx
      exact h1.selCardOk x hx
    · intro x hx
      exact h1.selAssetOk x hx
    · exact h1.pIdx
    · exact h1.aIdx
  · rw [if_neg hph]
    exact ⟨h1, h2, h3⟩

theorem endTurn_preserves (o : List IterRand) {s : GameState} (h : GameInv s) :
    GameInv (endTurn o s) ∧
      assetsLe s.player.assets (endTurn o s).player.assets ∧
      assetsLe s.ai.assets (endTurn o s).ai.assets := by
  unfold endTurn
  by_cases hph : s.phase ≠ GamePhase.attack_phase
  · rw [if_pos hph]; exact ⟨h, assetsLe_refl _, assetsLe_refl _⟩
  rw [if_neg hph]
  by_cases hat : s.currentAttacker ≠ Who.player
  · rw [if_pos hat]; exact ⟨h, assetsLe_refl _, assetsLe_refl _⟩
  rw [if_neg hat]
  dsimp only
  have hdraw := drawToHandSize_idsOk s.player.taHand
    s.taDeck (s.player.taHand.length + 2) s.nextId h.pTaIds
  have key : GameInv { s with
      player := { s.player with
        taHand := (drawToHandSize s.player.taHand s.taDeck
          (s.player.taHand.length + 2) s.nextId).1 },
      taDeck := (drawToHandSize s.player.taHand s.taDeck
        (s.player.taHand.length + 2) s.nextId).2.1,
      nextId := (drawToHandSize s.player.taHand s.taDeck
        (s.player.taHand.length + 2) s.nextId).2.2,
      currentAttacker := Who.ai,
      turnNumber := s.turnNumber + 1,
      selectedCard := none,
      selectedAsset := none } := by
    refine ⟨?_, ?_, ?_, ?_, ?_, ?_, ?_, ?_, ?_, ?_, ?_, ?_⟩
    · refine List.Perm.trans ?_ h.taPerm
      rw [List.perm_iff_count]
      intro x
      have hdc := drawToHandSize_count s.taDeck s.player.taHand
        (s.player.taHand.length + 2) s.nextId x
      simp only [taZone, List.count_append]
      omega
    · exact h.dcPerm
    · exact hdraw.1
    · exact handIdsOk_mono h.pDcIds hdraw.2
    · exact handIdsOk_mono h.aTaIds hdraw.2
    · exact handIdsOk_mono h.aDcIds hdraw.2
    · exact h.pAssetIds
    · exact h.aAssetIds
    · intro x hx; cases hx
    · intro x hx; cases hx
    · exact h.pIdx
    · exact h.aIdx
  obtain ⟨g1, g2, g3⟩ := executeAITurn_preserves o key
  exact ⟨g1, g2, g3⟩

theorem performCoinFlip_preserves (r : Nat) (o : List IterRand) {s : GameState}
    (h : GameInv s) :
    GameInv (performCoinFlip r o s) ∧
      assetsLe s.player.assets (performCoinFlip r o s).player.assets ∧
      assetsLe s.ai.assets (performCoinFlip r o s).ai.assets := by
  unfold performCoinFlip
  by_cases hph : s.phase ≠ GamePhase.coin_flip
  · rw [if_pos hph]; exact ⟨h, assetsLe_refl _, assetsLe_refl _⟩
  rw [if_neg hph]
  cases hd : s.difficulty with
  | none => exact ⟨h, assetsLe_refl _, assetsLe_refl _⟩
  | some d =>
    dsimp only
    have key : ∀ w : Who, GameInv { s with currentAttacker := w, phase := GamePhase.attack_phase, difficulty := some d } := by
      intro w
      obtain ⟨f1, f2, f3, f4, f5, f6, f7, f8, f9, f10, f11, f12⟩ := h
      exact ⟨f1, f2, f3, f4, f5, f6, f7, f8, f9, f10, f11, f12⟩
    by_cases hr : r < 50
    · rw [if_pos hr]
      rw [if_neg (by simp)]
      exact ⟨key Who.player, assetsLe_refl _, assetsLe_refl _⟩
    · rw [if_neg hr]
      rw [if_pos rfl]
      obtain ⟨g1, g2, g3⟩ := executeAITurn_preserves o (key Who.ai)
      exact ⟨g1, g2, g3⟩

theorem step_preserves {s s' : GameState} (hst : Step s s') (h : GameInv s) :
    GameInv s' ∧ assetsLe s.player.assets s'.player.assets ∧
      assetsLe s.ai.assets s'.ai.assets := by
  cases hst with
  | selCard c hmem =>
    refine ⟨⟨h.taPerm, h.dcPerm, h.pTaIds, h.pDcIds, h.aTaIds, h.aDcIds, h.pAssetIds,
      h.aAssetIds, ?_, ?_, h.pIdx, h.aIdx⟩, assetsLe_refl _, assetsLe_refl _⟩
    · intro x hx
      cases hx
      exact hmem
    · intro x hx
      exact h.selAssetOk x hx
  | clearCard =>
    refine ⟨⟨h.taPerm, h.dcPerm, h.pTaIds, h.pDcIds, h.aTaIds, h.aDcIds, h.pAssetIds,
      h.aAssetIds, ?_, ?_, h.pIdx, h.aIdx⟩, assetsLe_refl _, assetsLe_refl _⟩
    · intro x hx; cases hx
    · intro x hx
      exact h.selAssetOk x hx
  | selAsset a hmem =>
    refine ⟨⟨h.taPerm, h.dcPerm, h.pTaIds, h.pDcIds, h.aTaIds, h.aDcIds, h.pAssetIds,
      h.aAssetIds, ?_, ?_, h.pIdx, h.aIdx⟩, assetsLe_refl _, assetsLe_refl _⟩
    · intro x hx
      exact h.selCardOk x hx
    · intro x hx
      cases hx
      exact hmem
  | clearAsset =>
    refine ⟨⟨h.taPerm, h.dcPerm, h.pTaIds, h.pDcIds, h.aTaIds, h.aDcIds, h.pAssetIds,
      h.aAssetIds, ?_, ?_, h.pIdx, h.aIdx⟩, assetsLe_refl _, assetsLe_refl _⟩
    · intro x hx
      exact h.selCardOk x hx
    · intro x hx; cases hx
  | pickDifficulty d =>
    refine ⟨⟨h.taPerm, h.dcPerm, h.pTaIds, h.pDcIds, h.aTaIds, h.aDcIds, h.pAssetIds,
      h.aAssetIds, ?_, ?_, h.pIdx, h.aIdx⟩, assetsLe_refl _, assetsLe_refl _⟩
    · intro x hx
      exact h.selCardOk x hx
    · intro x hx
      exact h.selAssetOk x hx
  | coinFlip r o => exact performCoinFlip_preserves r o h
  | attack r => exact playerAttack_preserves r h
  | turnEnd o => exact endTurn_preserves o h
theorem createHandCards_map (n : Nat) (l : List PlayableCard) :
    (createHandCards n l).map HandCard.card = l := by
  induction l generalizing n with
  | nil => rfl
  | cons c rest ih => rw [createHandCards, List.map_cons, ih]

theorem createHandCards_length (n : Nat) (l : List PlayableCard) :
    (createHandCards n l).length = l.length := by
  have := congrArg List.length (createHandCards_map n l)
  simpa using this

theorem createHandCards_id_bounds (n : Nat) (l : List PlayableCard) :
    ∀ hc ∈ createHandCards n l, n ≤ hc.instanceId ∧ hc.instanceId < n + l.length := by
  induction l generalizing n with
  | nil => intro hc hm; cases hm
  | cons c rest ih =>
    intro hc hm
    rw [createHandCards] at hm
    rcases List.mem_cons.mp hm with rfl | hm'
    · simp
    · have := ih (n + 1) hc hm'
      simp only [List.length_cons]
      omega

theorem createHandCards_nodup (n : Nat) (l : List PlayableCard) :
    ((createHandCards n l).map HandCard.instanceId).Nodup := by
  induction l generalizing n with
  | nil => exact List.nodup_nil
  | cons c rest ih =>
    rw [createHandCards, List.map_cons, List.nodup_cons]
    refine ⟨?_, ih (n + 1)⟩
    intro hmem
    obtain ⟨hc, hm, hid⟩ := List.mem_map.mp hmem
    have := (createHandCards_id_bounds (n + 1) rest hc hm).1
    simp only at hid
    omega

theorem createCyberAssets_length (n : Nat) (l : List AssetCard) :
    (createCyberAssets n l).length = l.length := by
  induction l generalizing n with
  | nil => rfl
  | cons c rest ih => rw [createCyberAssets, List.length_cons, List.length_cons, ih]

theorem createCyberAssets_id_bounds (n : Nat) (l : List AssetCard) :
    ∀ a ∈ createCyberAssets n l, n ≤ a.instanceId ∧ a.instanceId < n + l.length := by
  induction l generalizing n with
  | nil => intro a hm; cases hm
  | cons c rest ih =>
    intro a hm
    rw [createCyberAssets] at hm
    rcases List.mem_cons.mp hm with rfl | hm'
    · simp
    · have := ih (n + 1) a hm'
      simp only [List.length_cons]
      omega

theorem createCyberAssets_nodup (n : Nat) (l : List AssetCard) :
    ((createCyberAssets n l).map CyberAsset.instanceId).Nodup := by
  induction l generalizing n with
  | nil => exact List.nodup_nil
  | cons c rest ih =>
    rw [createCyberAssets, List.map_cons, List.nodup_cons]
    refine ⟨?_, ih (n + 1)⟩
    intro hmem
    obtain ⟨a, hm, hid⟩ := List.mem_map.mp hmem
    have := (createCyberAssets_id_bounds (n + 1) rest a hm).1
    simp only at hid
    omega

theorem createCyberAssets_idxOk (n : Nat) (l : List AssetCard) :
    assetIdxOk (createCyberAssets n l) := by
  induction l generalizing n with
  | nil => intro a hm; cases hm
  | cons c rest ih =>
    intro a hm
    rw [createCyberAssets] at hm
    rcases List.mem_cons.mp hm with rfl | hm'
    · rfl
    · exact ih (n + 1) a hm'

theorem dealSplit_perm (l : List PlayableCard) :
    List.Perm (l.drop (HAND_SIZE * 2) ++ l.take HAND_SIZE ++ (l.drop HAND_SIZE).take HAND_SIZE) l := by
  rw [List.append_assoc]
  have hdd : (l.drop HAND_SIZE).drop HAND_SIZE = l.drop (HAND_SIZE * 2) := by
    rw [List.drop_drop]
    norm_num [HAND_SIZE]
  have hsplit : l.take HAND_SIZE ++ ((l.drop HAND_SIZE).take HAND_SIZE ++ l.drop (HAND_SIZE * 2)) = l := by
    rw [← hdd, List.take_append_drop, List.take_append_drop]
  refine List.Perm.trans (List.perm_append_comm) ?_
  rw [List.append_assoc]
  rw [hsplit]

theorem createShuffledDeck_perm (js : Nat → Nat) (cards : List PlayableCard) :
    List.Perm (createShuffledDeck js cards) cards :=
  shuffle_perm js cards

theorem initGame_inv (o : InitRand) : GameInv (initGame o) := by
  unfold initGame
  dsimp only
  generalize hTA : createShuffledDeck o.taJs (generateFullDeck.taCards ++
    [generateFullDeck.jokers.getD 0 (PlayableCard.joker JokerType.black)]) = S
  generalize hDC : createShuffledDeck o.dcJs (generateFullDeck.dcCards ++
    [generateFullDeck.jokers.getD 1 (PlayableCard.joker JokerType.red)]) = D
  generalize hTAA : shuffle o.taAssetJs generateFullDeck.taAssets = TAA
  generalize hDCA : shuffle o.dcAssetJs generateFullDeck.dcAssets = DAA
  have hSperm : List.Perm S fullTaZone := by
    rw [← hTA]
    exact createShuffledDeck_perm _ _
  have hDperm : List.Perm D fullDcZone := by
    rw [← hDC]
    exact createShuffledDeck_perm _ _
  refine ⟨?_, ?_, ?_, ?_, ?_, ?_, ?_, ?_, ?_, ?_, ?_, ?_⟩
  · simp only [taZone, List.append_nil, createHandCards_map]
    exact (dealSplit_perm S).trans hSperm
  · simp only [dcZone, List.append_nil, createHandCards_map]
    exact (dealSplit_perm D).trans hDperm
  · refine ⟨createHandCards_nodup _ _, ?_⟩
    intro hc hm
    have := (createHandCards_id_bounds _ _ hc hm).2
    simp only [createHandCards_length, createCyberAssets_length] at *
    omega
  · refine ⟨createHandCards_nodup _ _, ?_⟩
    intro hc hm
    have := (createHandCards_id_bounds _ _ hc hm).2
    simp only [createHandCards_length, createCyberAssets_length] at *
    omega
  · refine ⟨createHandCards_nodup _ _, ?_⟩
    intro hc hm
    have := (createHandCards_id_bounds _ _ hc hm).2
    simp only [createHandCards_length, createCyberAssets_length] at *
    omega
  · refine ⟨createHandCards_nodup _ _, ?_⟩
    intro hc hm
    have := (createHandCards_id_bounds _ _ hc hm).2
    simp only [createHandCards_length, createCyberAssets_length] at *
    omega
  · exact createCyberAssets_nodup _ _
  · exact createCyberAssets_nodup _ _
  · intro x hx; cases hx
  · intro x hx; cases hx
  · exact createCyberAssets_idxOk _ _
  · exact createCyberAssets_idxOk _ _

theorem reachable_inv {s : GameState} (h : Reachable s) : GameInv s := by
  induction h with
  | init o => exact initGame_inv o
  | step hr hst ih => exact (step_preserves hst ih).1
theorem hand_remove_length (hand : List HandCard) (hc : HandCard)
    (hmem : hc ∈ hand) (hnodup : (hand.map HandCard.instanceId).Nodup) :
    (hand.filter (fun c => c.instanceId != hc.instanceId)).length + 1 = hand.length := by
  have := (hand_remove_perm hand hc hmem hnodup).length_eq
  simp only [List.length_map, List.length_cons] at this
  omega

theorem drawToHandSize_mem (deck : List PlayableCard) (hand : List HandCard) (t nid : Nat) :
    ∀ x ∈ (drawToHandSize hand deck t nid).1, x ∈ hand ∨ nid ≤ x.instanceId := by
  induction deck generalizing hand nid with
  | nil => intro x hx; exact Or.inl hx
  | cons c rest ih =>
    by_cases h : hand.length < t
    · rw [drawToHandSize, if_pos h]
      intro x hx
      rcases ih (hand ++ [⟨nid, c⟩]) (nid + 1) x hx with hx' | hx'
      · rcases List.mem_append.mp hx' with hx'' | hx''
        · exact Or.inl hx''
        · simp only [List.mem_singleton] at hx''
          right
          rw [hx'']
      · right
        omega
    · rw [drawToHandSize, if_neg h]
      intro x hx
      exact Or.inl hx

theorem damageAssetAt_mem_update {assets : List CyberAsset} {a : CyberAsset}
    (hnodup : (assets.map CyberAsset.instanceId).Nodup) (hmem : a ∈ assets)
    (st : AssetState) :
    ({ a with state := getNextAssetState st, damageCount := a.damageCount + 1 }
      : CyberAsset) ∈ damageAssetAt assets a.instanceId st := by
  induction assets with
  | nil => cases hmem
  | cons h0 rest ih =>
    rw [List.map_cons, List.nodup_cons] at hnodup
    obtain ⟨hnotin, hrest⟩ := hnodup
    rw [damageAssetAt]
    by_cases hid : h0.instanceId = a.instanceId
    · rw [if_pos hid]
      have h0a : h0 = a := by
        rcases List.mem_cons.mp hmem with rfl | hm'
        · rfl
        · exact absurd (hid ▸ List.mem_map_of_mem CyberAsset.instanceId hm') hnotin
      rw [h0a]
      exact List.mem_cons_self _ _
    · rw [if_neg hid]
      have hm' : a ∈ rest := by
        rcases List.mem_cons.mp hmem with rfl | hm'
        · exact absurd rfl hid
        · exact hm'
      exact List.mem_cons_of_mem _ (ih hrest hm')

/-- The identity-shuffle oracle used by the concrete executions below: at
every Fisher-Yates step the drawn index equals the current position, so
every swap is a self-swap and the deck retains its generation order. -/
def idInitRand : InitRand := ⟨id, id, id, id⟩

/-- A concrete freshly generated game (identity shuffles). -/
def trace0 : GameState := initGame idInitRand

/-- The concrete game after the difficulty pick. -/
def trace1 : GameState := setDifficulty Difficulty.hard trace0

/-- The concrete game after a coin flip won by the player. -/
def trace2 : GameState := performCoinFlip 0 [] trace1

/-- Attack-loop oracle for the concrete AI turns: the continue draw at
the 10th percentile is below every continue probability, so the AI keeps
attacking until a policy rule stops it. -/
def c6oracle : List IterRand :=
  [⟨0, 10⟩, ⟨0, 10⟩, ⟨0, 10⟩, ⟨0, 10⟩, ⟨0, 10⟩]

/-- The concrete game after the player immediately ends the first turn and
the first AI turn runs: the AI destroys the player's first asset with its
three highest cards and ends its turn with a low hand. -/
def trace3 : GameState := endTurn c6oracle trace2

/-- The concrete game after the player ends the next turn as well: in this
second AI turn the AI rotates the player's second asset, then its forced
low-value attack is blocked by the player's matching Defense Control, which
ends the AI turn. -/
def trace4 : GameState := endTurn c6oracle trace3

/-- The player's first attack card in trace2 (hearts 1, instance id 0). -/
def cardA1 : HandCard := ⟨0, PlayableCard.threatAgent Suit.hearts 1⟩

/-- The player's second attack card (hearts 2). -/
def cardA2 : HandCard := ⟨1, PlayableCard.threatAgent Suit.hearts 2⟩

/-- The player's third attack card (hearts 3). -/
def cardA3 : HandCard := ⟨2, PlayableCard.threatAgent Suit.hearts 3⟩

/-- The player's fourth attack card (hearts 4). -/
def cardA4 : HandCard := ⟨3, PlayableCard.threatAgent Suit.hearts 4⟩

/-- The AI's first asset in trace2, freshly dealt facedown. -/
def assetJ0 : CyberAsset := ⟨23, ⟨Suit.hearts, FaceCardType.jack⟩, AssetState.facedown, 0⟩

/-- The same asset after one hit. -/
def assetJ1 : CyberAsset := ⟨23, ⟨Suit.hearts, FaceCardType.jack⟩, AssetState.revealed, 1⟩

/-- The same asset after two hits. -/
def assetJ2 : CyberAsset := ⟨23, ⟨Suit.hearts, FaceCardType.jack⟩, AssetState.rotated, 2⟩

/-- The same asset after three hits: destroyed. -/
def assetJ3 : CyberAsset := ⟨23, ⟨Suit.hearts, FaceCardType.jack⟩, AssetState.destroyed, 3⟩

/-- Concrete game after the player resolves one attack on the AI's first
asset (the AI defense hand holds no matching value, so the hit lands). -/
def p1 : GameState := playerAttack 1 (selectAsset (some assetJ0) (selectCard (some cardA1) trace2))

/-- After the second resolved attack on the same asset. -/
def p2 : GameState := playerAttack 1 (selectAsset (some assetJ1) (selectCard (some cardA2) p1))

/-- After the third resolved attack: the asset is destroyed. -/
def p3 : GameState := playerAttack 1 (selectAsset (some assetJ2) (selectCard (some cardA3) p2))

/-- After a fourth attack selecting the already-destroyed asset: the
engine resolves it rather than rejecting it. -/
def p4 : GameState := playerAttack 1 (selectAsset (some assetJ3) (selectCard (some cardA4) p3))

theorem trace2_reachable : Reachable trace2 :=
  Reachable.step
    (Reachable.step (Reachable.init idInitRand) (Step.pickDifficulty trace0 Difficulty.hard))
    (Step.coinFlip trace1 0 [])

theorem trace4_reachable : Reachable trace4 :=
  Reachable.step (Reachable.step trace2_reachable (Step.turnEnd trace2 c6oracle))
    (Step.turnEnd trace3 c6oracle)

set_option maxRecDepth 20000 in
theorem cardA1_mem : cardA1 ∈ trace2.player.taHand := by decide

set_option maxRecDepth 20000 in
theorem assetJ0_mem : assetJ0 ∈ (selectCard (some cardA1) trace2).ai.assets := by decide

set_option maxRecDepth 20000 in
theorem cardA2_mem : cardA2 ∈ p1.player.taHand := by decide

set_option maxRecDepth 20000 in
theorem assetJ1_mem : assetJ1 ∈ (selectCard (some cardA2) p1).ai.assets := by decide

set_option maxRecDepth 20000 in
theorem cardA3_mem : cardA3 ∈ p2.player.taHand := by decide

set_option maxRecDepth 20000 in
theorem assetJ2_mem : assetJ2 ∈ (selectCard (some cardA3) p2).ai.assets := by decide

set_option maxRecDepth 20000 in
theorem cardA4_mem : cardA4 ∈ p3.player.taHand := by decide

set_option maxRecDepth 20000 in
theorem assetJ3_mem : assetJ3 ∈ (selectCard (some cardA4) p3).ai.assets := by decide

theorem p3_reachable : Reachable p3 := by
  have h1 : Reachable p1 :=
    Reachable.step
      (Reachable.step (Reachable.step trace2_reachable
        (Step.selCard trace2 cardA1 cardA1_mem))
        (Step.selAsset (selectCard (some cardA1) trace2) assetJ0 assetJ0_mem))
      (Step.attack (selectAsset (some assetJ0) (selectCard (some cardA1) trace2)) 1)
  have h2 : Reachable p2 :=
    Reachable.step
      (Reachable.step (Reachable.step h1
        (Step.selCard p1 cardA2 cardA2_mem))
        (Step.selAsset (selectCard (some cardA2) p1) assetJ1 assetJ1_mem))
      (Step.attack (selectAsset (some assetJ1) (selectCard (some cardA2) p1)) 1)
  exact
    Reachable.step
      (Reachable.step (Reachable.step h2
        (Step.selCard p2 cardA3 cardA3_mem))
        (Step.selAsset (selectCard (some cardA3) p2) assetJ2 assetJ2_mem))
      (Step.attack (selectAsset (some assetJ2) (selectCard (some cardA3) p2)) 1)

theorem p4_reachable : Reachable p4 :=
  Reachable.step
    (Reachable.step (Reachable.step p3_reachable
      (Step.selCard p3 cardA4 cardA4_mem))
      (Step.selAsset (selectCard (some cardA4) p3) assetJ3 assetJ3_mem))
    (Step.attack (selectAsset (some assetJ3) (selectCard (some cardA4) p3)) 1)
/-- C1: canDefend is true iff either card is a Joker, or the defense is
categorically a Defense Control, the attack categorically a Threat Agent,
and their numeric values are equal; every other category combination gives
false.  The predicate is a total Lean function, mirroring the pure and
total source predicate. -/
theorem c1_canDefend_spec (attackCard defenseCard : PlayableCard) :
    canDefend attackCard defenseCard = true ↔
      (defenseCard.category = CardCategory.joker ∨
        attackCard.category = CardCategory.joker ∨
        (defenseCard.category = CardCategory.defense_control ∧
          attackCard.category = CardCategory.threat_agent ∧
          defenseCard.value = attackCard.value)) := by
  cases attackCard <;> cases defenseCard <;>
    simp [canDefend, PlayableCard.category, PlayableCard.value]

/-- C2: the win evaluation checks its four conditions in the fixed order
player-destroyed-assets, ai-destroyed-assets, player-defenses, ai-defenses;
the first satisfied condition determines the winner phase in both
checkWinCondition and getWinReason, and when none is satisfied the phase
is left unchanged (checkWinCondition returns the current phase and
getWinReason returns none). -/
theorem c2_win_evaluation_priority (s : GameState) :
    (countDestroyedAssets s.player.assets ≥ 2 →
      checkWinCondition s = GamePhase.ai_won ∧ getWinReason s = some GamePhase.ai_won) ∧
    (countDestroyedAssets s.player.assets < 2 → countDestroyedAssets s.ai.assets ≥ 2 →
      checkWinCondition s = GamePhase.player_won ∧
        getWinReason s = some GamePhase.player_won) ∧
    (countDestroyedAssets s.player.assets < 2 → countDestroyedAssets s.ai.assets < 2 →
      s.player.successfulDefenses ≥ 6 →
      checkWinCondition s = GamePhase.player_won ∧
        getWinReason s = some GamePhase.player_won) ∧
    (countDestroyedAssets s.player.assets < 2 → countDestroyedAssets s.ai.assets < 2 →
      s.player.successfulDefenses < 6 → s.ai.successfulDefenses ≥ 6 →
      checkWinCondition s = GamePhase.ai_won ∧ getWinReason s = some GamePhase.ai_won) ∧
    (countDestroyedAssets s.player.assets < 2 → countDestroyedAssets s.ai.assets < 2 →
      s.player.successfulDefenses < 6 → s.ai.successfulDefenses < 6 →
      checkWinCondition s = s.phase ∧ getWinReason s = none) := by
  unfold checkWinCondition getWinReason ASSETS_TO_WIN DEFENSES_TO_WIN
  dsimp only
  refine ⟨?_, ?_, ?_, ?_, ?_⟩ <;> intros <;> split_ifs <;>
    first | exact ⟨rfl, rfl⟩ | omega

/-- Witness state for the win-priority theorem: the player has breached
two AI assets while the AI has also reached six successful defenses; the
priority order resolves this to a player win. -/
def w2state : GameState :=
  { phase := GamePhase.attack_phase, currentAttacker := Who.player,
    difficulty := some Difficulty.hard,
    player :=
      { assets := [⟨0, ⟨Suit.spades, FaceCardType.jack⟩, AssetState.facedown, 0⟩],
        taHand := [], dcHand := [], taDiscard := [], dcDiscard := [],
        successfulDefenses := 0 },
    ai :=
      { assets :=
          [⟨1, ⟨Suit.hearts, FaceCardType.jack⟩, AssetState.destroyed, 3⟩,
           ⟨2, ⟨Suit.hearts, FaceCardType.queen⟩, AssetState.destroyed, 3⟩,
           ⟨3, ⟨Suit.hearts, FaceCardType.king⟩, AssetState.facedown, 0⟩],
        taHand := [], dcHand := [], taDiscard := [], dcDiscard := [],
        successfulDefenses := 6 },
    taDeck := [], dcDeck := [], attackState := none, turnNumber := 1,
    selectedCard := none, selectedAsset := none, nextId := 4 }

/-- Witness for C2: on the concrete state satisfying both the breach
condition for the player and the AI defense condition, the priority order
reports a player win. -/
theorem c2_win_evaluation_priority_witness :
    checkWinCondition w2state = GamePhase.player_won ∧
      getWinReason w2state = some GamePhase.player_won :=
  (c2_win_evaluation_priority w2state).2.1 (by decide) (by decide)

/-- C9: aiChooseTarget returns none exactly when every asset is destroyed;
otherwise it returns a non-destroyed member of the list that is maximal
under the state rank rotated over revealed over facedown, ties broken by
damage count. -/
theorem c9_aiChooseTarget_spec (assets : List CyberAsset) :
    (aiChooseTarget assets = none ↔ ∀ a ∈ assets, a.state = AssetState.destroyed) ∧
    (∀ t, aiChooseTarget assets = some t →
      t ∈ assets ∧ t.state ≠ AssetState.destroyed ∧
        ∀ a ∈ assets, a.state ≠ AssetState.destroyed →
          (stateRank a.state < stateRank t.state ∨
            (stateRank a.state = stateRank t.state ∧ a.damageCount ≤ t.damageCount))) := by
  refine ⟨aiChooseTarget_none_iff assets, ?_⟩
  intro t ht
  obtain ⟨h1, h2, h3⟩ := aiChooseTarget_some_spec ht
  exact ⟨h1, h2, fun a ha hnd => h3 a ha hnd⟩

/-- Witness for C9: on a concrete board with a rotated and a facedown
asset, the rotated one is chosen and is maximal. -/
theorem c9_aiChooseTarget_spec_witness :
    (⟨1, ⟨Suit.hearts, FaceCardType.queen⟩, AssetState.rotated, 2⟩ : CyberAsset) ∈
        ([⟨0, ⟨Suit.hearts, FaceCardType.jack⟩, AssetState.facedown, 0⟩,
          ⟨1, ⟨Suit.hearts, FaceCardType.queen⟩, AssetState.rotated, 2⟩] :
          List CyberAsset) ∧
      (⟨1, ⟨Suit.hearts, FaceCardType.queen⟩, AssetState.rotated, 2⟩ :
          CyberAsset).state ≠ AssetState.destroyed ∧
      ∀ a ∈ ([⟨0, ⟨Suit.hearts, FaceCardType.jack⟩, AssetState.facedown, 0⟩,
          ⟨1, ⟨Suit.hearts, FaceCardType.queen⟩, AssetState.rotated, 2⟩] :
          List CyberAsset), a.state ≠ AssetState.destroyed →
        (stateRank a.state <
            stateRank (AssetState.rotated) ∨
          (stateRank a.state = stateRank (AssetState.rotated) ∧ a.damageCount ≤ 2)) :=
  (c9_aiChooseTarget_spec
    [⟨0, ⟨Suit.hearts, FaceCardType.jack⟩, AssetState.facedown, 0⟩,
     ⟨1, ⟨Suit.hearts, FaceCardType.queen⟩, AssetState.rotated, 2⟩]).2
    ⟨1, ⟨Suit.hearts, FaceCardType.queen⟩, AssetState.rotated, 2⟩ (by decide)

/-- C8: invoking playerAttack outside attack_phase, or when the attacker
is not the player, or without both selections, and invoking endTurn
outside attack_phase or when the attacker is not the player, returns the
state unchanged: a silent no-op, never a raised fault (both operations are
total functions). -/
theorem c8_illegal_requests_noop (s : GameState) (r : Nat) (o : List IterRand) :
    ((s.phase ≠ GamePhase.attack_phase ∨ s.currentAttacker ≠ Who.player ∨
        s.selectedCard = none ∨ s.selectedAsset = none) → playerAttack r s = s) ∧
    ((s.phase ≠ GamePhase.attack_phase ∨ s.currentAttacker ≠ Who.player) →
        endTurn o s = s) := by
  constructor
  · intro h
    unfold playerAttack
    cases hc : s.selectedCard with
    | none => rfl
    | some c =>
      cases ha : s.selectedAsset with
      | none => rfl
      | some a =>
        dsimp only
        rcases h with h | h | h | h
        · rw [if_pos h]
        · by_cases hph : s.phase ≠ GamePhase.attack_phase
          · rw [if_pos hph]
          · rw [if_neg hph, if_pos h]
        · rw [hc] at h; cases h
        · rw [ha] at h; cases h
  · intro h
    unfold endTurn
    rcases h with h | h
    · rw [if_pos h]
    · by_cases hph : s.phase ≠ GamePhase.attack_phase
      · rw [if_pos hph]
      · rw [if_neg hph, if_pos h]

/-- Witness for C8: on a concrete state still in the coin-flip phase, both
operations leave the state unchanged. -/
theorem c8_illegal_requests_noop_witness :
    playerAttack 0 trace1 = trace1 ∧ endTurn [] trace1 = trace1 :=
  ⟨(c8_illegal_requests_noop trace1 0 []).1 (Or.inl (by decide)),
   (c8_illegal_requests_noop trace1 0 []).2 (Or.inl (by decide))⟩
/-- C4 (amended): in every reachable state the attack side owns exactly 21
cards in total across draw pile, both hands and both discards: 20 value
cards and 1 joker; likewise the defense side.  (The claimed total of 41
does not match the generated deck, which holds 2 suits of 10 values per
side.) -/
theorem c4_deck_integrity (s : GameState) (h : Reachable s) :
    (taZone s).length = 21 ∧
    (taZone s).count (PlayableCard.joker JokerType.black) = 1 ∧
    ((taZone s).filter (fun c => c.category != CardCategory.joker)).length = 20 ∧
    (dcZone s).length = 21 ∧
    (dcZone s).count (PlayableCard.joker JokerType.red) = 1 ∧
    ((dcZone s).filter (fun c => c.category != CardCategory.joker)).length = 20 := by
  have hInv := reachable_inv h
  have hta := hInv.taPerm
  have hdc := hInv.dcPerm
  refine ⟨?_, ?_, ?_, ?_, ?_, ?_⟩
  · rw [hta.length_eq]; decide
  · rw [hta.count_eq]; decide
  · rw [(hta.filter _).length_eq]; decide
  · rw [hdc.length_eq]; decide
  · rw [hdc.count_eq]; decide
  · rw [(hdc.filter _).length_eq]; decide

/-- Witness for C4 on the concrete freshly generated game. -/
theorem c4_deck_integrity_witness :
    (taZone trace0).length = 21 ∧
    (taZone trace0).count (PlayableCard.joker JokerType.black) = 1 ∧
    ((taZone trace0).filter (fun c => c.category != CardCategory.joker)).length = 20 ∧
    (dcZone trace0).length = 21 ∧
    (dcZone trace0).count (PlayableCard.joker JokerType.red) = 1 ∧
    ((dcZone trace0).filter (fun c => c.category != CardCategory.joker)).length = 20 :=
  c4_deck_integrity trace0 (Reachable.init idInitRand)

set_option maxRecDepth 20000 in
/-- Counterexample for C4 as stated: the attack-side total of a generated
game is 21 cards, not the claimed 41; the same on the defense side. -/
theorem c4_counterexample :
    (taZone trace0).length = 21 ∧ ¬ (taZone trace0).length = 41 ∧
    (dcZone trace0).length = 21 ∧ ¬ (dcZone trace0).length = 41 :=
  ⟨by decide, by decide, by decide, by decide⟩

/-- C10: destroyed is absorbing: getNextAssetState maps destroyed to
destroyed, and across every reachable engine step each asset keeps its
identity and card while a destroyed state can never be left (only the
damage counter may still change). -/
theorem c10_destroyed_absorbing :
    getNextAssetState AssetState.destroyed = AssetState.destroyed ∧
    ∀ s s', Reachable s → Step s s' →
      List.Forall₂ (fun a b => b.instanceId = a.instanceId ∧ b.card = a.card ∧
          (a.state = AssetState.destroyed → b.state = AssetState.destroyed))
        s.player.assets s'.player.assets ∧
      List.Forall₂ (fun a b => b.instanceId = a.instanceId ∧ b.card = a.card ∧
          (a.state = AssetState.destroyed → b.state = AssetState.destroyed))
        s.ai.assets s'.ai.assets := by
  refine ⟨rfl, ?_⟩
  intro s s' hr hst
  obtain ⟨_, hP, hA⟩ := step_preserves hst (reachable_inv hr)
  exact ⟨hP.imp (fun a b h => ⟨h.1, h.2.1, h.2.2.2.2⟩),
    hA.imp (fun a b h => ⟨h.1, h.2.1, h.2.2.2.2⟩)⟩

/-- The reachable state in which the player has selected the fourth attack
card and the already-destroyed asset. -/
def p3sel : GameState := selectAsset (some assetJ3) (selectCard (some cardA4) p3)

theorem p3sel_reachable : Reachable p3sel :=
  Reachable.step (Reachable.step p3_reachable
    (Step.selCard p3 cardA4 cardA4_mem))
    (Step.selAsset (selectCard (some cardA4) p3) assetJ3 assetJ3_mem)

/-- Witness for C10 on the concrete fourth attack against the destroyed
asset. -/
theorem c10_destroyed_absorbing_witness :
    getNextAssetState AssetState.destroyed = AssetState.destroyed ∧
    List.Forall₂ (fun a b => b.instanceId = a.instanceId ∧ b.card = a.card ∧
        (a.state = AssetState.destroyed → b.state = AssetState.destroyed))
      p3sel.ai.assets p4.ai.assets :=
  ⟨c10_destroyed_absorbing.1,
    (c10_destroyed_absorbing.2 p3sel p4 p3sel_reachable (Step.attack p3sel 1)).2⟩

/-- C3 (amended): across every reachable engine step both asset lists
evolve pointwise with non-decreasing lifecycle index and non-decreasing
damage counter, and in every reachable state each asset's lifecycle index
equals its damage counter saturated at 3 (so damage equals the index
exactly as long as the asset has been hit at most three times; a resolved
attack against an already-destroyed asset pushes the counter past the
index). -/
theorem c3_asset_monotonicity :
    (∀ s s', Reachable s → Step s s' →
      List.Forall₂ (fun a b => lifecycleIdx a.state ≤ lifecycleIdx b.state ∧
          a.damageCount ≤ b.damageCount)
        s.player.assets s'.player.assets ∧
      List.Forall₂ (fun a b => lifecycleIdx a.state ≤ lifecycleIdx b.state ∧
          a.damageCount ≤ b.damageCount)
        s.ai.assets s'.ai.assets) ∧
    (∀ s, Reachable s →
      (∀ a ∈ s.player.assets, lifecycleIdx a.state = min a.damageCount 3) ∧
      (∀ a ∈ s.ai.assets, lifecycleIdx a.state = min a.damageCount 3)) := by
  constructor
  · intro s s' hr hst
    obtain ⟨_, hP, hA⟩ := step_preserves hst (reachable_inv hr)
    exact ⟨hP.imp (fun a b h => ⟨h.2.2.1, h.2.2.2.1⟩),
      hA.imp (fun a b h => ⟨h.2.2.1, h.2.2.2.1⟩)⟩
  · intro s hr
    exact ⟨(reachable_inv hr).pIdx, (reachable_inv hr).aIdx⟩

/-- Witness for C3 on the concrete fourth attack and on the freshly
generated game. -/
theorem c3_asset_monotonicity_witness :
    List.Forall₂ (fun a b => lifecycleIdx a.state ≤ lifecycleIdx b.state ∧
        a.damageCount ≤ b.damageCount)
      p3sel.ai.assets p4.ai.assets ∧
    (∀ a ∈ trace0.player.assets, lifecycleIdx a.state = min a.damageCount 3) :=
  ⟨(c3_asset_monotonicity.1 p3sel p4 p3sel_reachable (Step.attack p3sel 1)).2,
   (c3_asset_monotonicity.2 trace0 (Reachable.init idInitRand)).1⟩

set_option maxRecDepth 20000 in
/-- Counterexample for C3 as stated: in the reachable state p4, produced
by a fourth resolved attack against an already-destroyed asset, the
asset's damage counter is 4 while its lifecycle state index is 3, so the
claimed equality of counter and index fails. -/
theorem c3_counterexample :
    Reachable p4 ∧
    (⟨23, ⟨Suit.hearts, FaceCardType.jack⟩, AssetState.destroyed, 4⟩ : CyberAsset) ∈
        p4.ai.assets ∧
    lifecycleIdx AssetState.destroyed ≠ 4 :=
  ⟨p4_reachable, by decide, by decide⟩
theorem getWinReason_none {t : GameState}
    (h1 : countDestroyedAssets t.player.assets < 2)
    (h2 : countDestroyedAssets t.ai.assets < 2)
    (h3 : t.player.successfulDefenses < 6)
    (h4 : t.ai.successfulDefenses < 6) : getWinReason t = none := by
  unfold getWinReason ASSETS_TO_WIN DEFENSES_TO_WIN
  dsimp only
  rw [if_neg (by omega), if_neg (by omega), if_neg (by omega), if_neg (by omega)]

theorem checkWinCondition_none {t : GameState}
    (h1 : countDestroyedAssets t.player.assets < 2)
    (h2 : countDestroyedAssets t.ai.assets < 2)
    (h3 : t.player.successfulDefenses < 6)
    (h4 : t.ai.successfulDefenses < 6) : checkWinCondition t = t.phase := by
  unfold checkWinCondition ASSETS_TO_WIN DEFENSES_TO_WIN
  dsimp only
  rw [if_neg (by omega), if_neg (by omega), if_neg (by omega), if_neg (by omega)]

/-- C7 (amended): the AI targeting logic never offers a destroyed asset
(aiChooseTarget returns none exactly on all-destroyed boards and only
returns non-destroyed assets), but the engine itself does not reject a
player attack whose selected target is already destroyed: with no defense
produced, the attack resolves and the destroyed asset's damage counter is
incremented (its state stays destroyed) instead of the attack being turned
away. -/
theorem c7_destroyed_targeting :
    (∀ (assets : List CyberAsset) (t : CyberAsset),
      aiChooseTarget assets = some t → t.state ≠ AssetState.destroyed) ∧
    (∀ assets : List CyberAsset,
      aiChooseTarget assets = none ↔ ∀ a ∈ assets, a.state = AssetState.destroyed) ∧
    (∀ (s : GameState) (r : Nat) (c : HandCard) (a : CyberAsset),
      s.phase = GamePhase.attack_phase → s.currentAttacker = Who.player →
      s.selectedCard = some c → s.selectedAsset = some a →
      a ∈ s.ai.assets → (s.ai.assets.map CyberAsset.instanceId).Nodup →
      a.state = AssetState.destroyed →
      aiChooseDefense s.ai.dcHand c.card (s.difficulty.getD Difficulty.hard) r = none →
      ({ a with state := AssetState.destroyed, damageCount := a.damageCount + 1 }
        : CyberAsset) ∈ (playerAttack r s).ai.assets) := by
  refine ⟨?_, fun assets => aiChooseTarget_none_iff assets, ?_⟩
  · intro assets t ht
    exact (aiChooseTarget_some_spec ht).2.1
  · intro s r c a hph hat hc ha hamem hnodup hdes hdec
    have mem := damageAssetAt_mem_update hnodup hamem a.state
    rw [hdes] at mem
    unfold playerAttack
    rw [hc, ha]
    dsimp only
    rw [if_neg (show ¬ s.phase ≠ GamePhase.attack_phase by simp [hph]),
      if_neg (show ¬ s.currentAttacker ≠ Who.player by simp [hat])]
    rw [hdec]
    dsimp only
    split
    · show ({ a with state := AssetState.destroyed, damageCount := a.damageCount + 1 }
        : CyberAsset) ∈ damageAssetAt s.ai.assets a.instanceId a.state
      rw [hdes]
      exact mem
    · show ({ a with state := AssetState.destroyed, damageCount := a.damageCount + 1 }
        : CyberAsset) ∈ damageAssetAt s.ai.assets a.instanceId a.state
      rw [hdes]
      exact mem

set_option maxRecDepth 20000 in
/-- Witness for C7: on the concrete reachable state with the destroyed
asset selected, the fourth attack resolves and increments the damage
counter. -/
theorem c7_destroyed_targeting_witness :
    ({ assetJ3 with state := AssetState.destroyed, damageCount := assetJ3.damageCount + 1 } : CyberAsset) ∈
      (playerAttack 1 p3sel).ai.assets :=
  c7_destroyed_targeting.2.2 p3sel 1 cardA4 assetJ3 (by decide) (by decide) rfl rfl
    (by decide) (by decide) (by decide) (by decide)

set_option maxRecDepth 20000 in
/-- Counterexample for C7 as stated: in the concrete reachable game, after
the player's third attack the first AI asset is destroyed; the fourth
attack attempt selecting that destroyed asset is not rejected: it
resolves, consuming the attack card and incrementing the asset's damage
counter to 4, so the asset does not stay unchanged. -/
theorem c7_counterexample :
    Reachable p3 ∧ assetJ3 ∈ p3.ai.assets ∧ assetJ3.state = AssetState.destroyed ∧
    Reachable p4 ∧
    (⟨23, ⟨Suit.hearts, FaceCardType.jack⟩, AssetState.destroyed, 4⟩ : CyberAsset) ∈
        p4.ai.assets ∧
    ¬ p4.ai.assets = p3.ai.assets ∧
    p4.player.taDiscard.length = p3.player.taDiscard.length + 1 :=
  ⟨p3_reachable, by decide, by decide, p4_reachable, by decide, by decide, by decide⟩
/-- C6 (amended): after a blocked attack with the player attacking, when
no win condition fires the phase returns to attack_phase with the player
still the attacker and the turn counter unchanged.  When the AI is the
attacker, a block unconditionally ends the attack loop without consulting
the continue policy: whatever oracle entries remain, the loop result
ignores them, the AI turn then ends, and the attacker role passes to the
player with the turn counter advanced. -/
theorem c6_blocked_attack_flow :
    (∀ (s : GameState) (r : Nat) (c : HandCard) (a : CyberAsset) (d : HandCard),
      s.phase = GamePhase.attack_phase → s.currentAttacker = Who.player →
      s.selectedCard = some c → s.selectedAsset = some a →
      aiChooseDefense s.ai.dcHand c.card (s.difficulty.getD Difficulty.hard) r = some d →
      countDestroyedAssets s.player.assets < 2 → countDestroyedAssets s.ai.assets < 2 →
      s.player.successfulDefenses < 6 → s.ai.successfulDefenses + 1 < 6 →
      (playerAttack r s).phase = GamePhase.attack_phase ∧
      (playerAttack r s).currentAttacker = Who.player ∧
      (playerAttack r s).turnNumber = s.turnNumber) ∧
    (∀ (s : GameState) (rr : IterRand) (rest : List IterRand)
        (target : CyberAsset) (ac pd : HandCard),
      s.phase = GamePhase.attack_phase →
      aiChooseTarget s.player.assets = some target →
      aiChooseAttackCard s.ai.taHand s.player.dcHand (s.difficulty.getD Difficulty.hard)
          rr.rAttack = some ac →
      s.player.dcHand.find? (fun hc => canDefend ac.card hc.card) = some pd →
      countDestroyedAssets s.player.assets < 2 → countDestroyedAssets s.ai.assets < 2 →
      s.player.successfulDefenses + 1 < 6 → s.ai.successfulDefenses < 6 →
      aiLoop (rr :: rest) s = aiLoop [rr] s ∧
      (executeAITurn (rr :: rest) s).currentAttacker = Who.player ∧
      (executeAITurn (rr :: rest) s).turnNumber = s.turnNumber + 1 ∧
      (executeAITurn (rr :: rest) s).player.successfulDefenses =
        s.player.successfulDefenses + 1) := by
  constructor
  · intro s r c a d hph hat hc ha hdec h1 h2 h3 h4
    unfold playerAttack
    rw [hc, ha]
    dsimp only
    rw [if_neg (show ¬ s.phase ≠ GamePhase.attack_phase by simp [hph]),
      if_neg (show ¬ s.currentAttacker ≠ Who.player by simp [hat])]
    rw [hdec]
    dsimp only
    split
    · next w heq =>
      exfalso
      unfold getWinReason at heq
      dsimp only at heq
      rw [if_neg (show ¬ countDestroyedAssets s.player.assets ≥ ASSETS_TO_WIN by
            unfold ASSETS_TO_WIN; omega),
        if_neg (show ¬ countDestroyedAssets s.ai.assets ≥ ASSETS_TO_WIN by
            unfold ASSETS_TO_WIN; omega),
        if_neg (show ¬ s.player.successfulDefenses ≥ DEFENSES_TO_WIN by
            unfold DEFENSES_TO_WIN; omega),
        if_neg (show ¬ s.ai.successfulDefenses + 1 ≥ DEFENSES_TO_WIN by
            unfold DEFENSES_TO_WIN; omega)] at heq
      cases heq
    · exact ⟨rfl, hat, rfl⟩
  · intro s rr rest target ac pd hph htgt hcard hdef h1 h2 h3 h4
    have hloop : ∀ os : List IterRand,
        aiLoop (rr :: os) s = { s with
          attackState := some ⟨target, ac, stageOf target.state,
            (match s.attackState with | some a => a.attacksThisRound | none => 0) + 1⟩,
          ai := { s.ai with
            taHand := s.ai.taHand.filter (fun x => x.instanceId != ac.instanceId),
            taDiscard := s.ai.taDiscard ++ [ac.card] },
          player := { s.player with
            dcHand := (drawToHandSize
              (s.player.dcHand.filter (fun x => x.instanceId != pd.instanceId)) s.dcDeck
              ((s.player.dcHand.filter (fun x => x.instanceId != pd.instanceId)).length + 2)
              s.nextId).1,
            dcDiscard := s.player.dcDiscard ++ [pd.card],
            successfulDefenses := s.player.successfulDefenses + 1 },
          dcDeck := (drawToHandSize
            (s.player.dcHand.filter (fun x => x.instanceId != pd.instanceId)) s.dcDeck
            ((s.player.dcHand.filter (fun x => x.instanceId != pd.instanceId)).length + 2)
            s.nextId).2.1,
          nextId := (drawToHandSize
            (s.player.dcHand.filter (fun x => x.instanceId != pd.instanceId)) s.dcDeck
            ((s.player.dcHand.filter (fun x => x.instanceId != pd.instanceId)).length + 2)
            s.nextId).2.2 } := by
      intro os
      rw [aiLoop]
      rw [if_neg (show ¬ s.phase ≠ GamePhase.attack_phase by simp [hph])]
      rw [htgt]
      dsimp only
      rw [hcard]
      dsimp only
      rw [hdef]
      dsimp only
      split
      · next hcnd =>
        exfalso
        unfold checkWinCondition at hcnd
        dsimp only at hcnd
        rw [if_neg (show ¬ countDestroyedAssets s.player.assets ≥ ASSETS_TO_WIN by
              unfold ASSETS_TO_WIN; omega),
          if_neg (show ¬ countDestroyedAssets s.ai.assets ≥ ASSETS_TO_WIN by
              unfold ASSETS_TO_WIN; omega),
          if_neg (show ¬ s.player.successfulDefenses + 1 ≥ DEFENSES_TO_WIN by
              unfold DEFENSES_TO_WIN; omega),
          if_neg (show ¬ s.ai.successfulDefenses ≥ DEFENSES_TO_WIN by
              unfold DEFENSES_TO_WIN; omega)] at hcnd
        exact hcnd.1 hph
      · rfl
    have h5 : (aiLoop (rr :: rest) s).phase = GamePhase.attack_phase := by
      rw [hloop rest]; exact hph
    refine ⟨(hloop rest).trans (hloop []).symm, ?_, ?_, ?_⟩
    · unfold executeAITurn
      dsimp only
      rw [if_pos h5]
    · unfold executeAITurn
      dsimp only
      rw [if_pos h5, hloop rest]
    · unfold executeAITurn
      dsimp only
      rw [if_pos h5, hloop rest]
/-- The intermediate state of trace4's end-turn: the player replenishment
and turn bookkeeping of endTurn on trace3, just before the AI turn runs
(the s1 of endTurn). -/
def trace3h : GameState := { trace3 with
  player := { trace3.player with
    taHand := (drawToHandSize trace3.player.taHand trace3.taDeck
      (trace3.player.taHand.length + 2) trace3.nextId).1 },
  taDeck := (drawToHandSize trace3.player.taHand trace3.taDeck
    (trace3.player.taHand.length + 2) trace3.nextId).2.1,
  nextId := (drawToHandSize trace3.player.taHand trace3.taDeck
    (trace3.player.taHand.length + 2) trace3.nextId).2.2,
  currentAttacker := Who.ai,
  turnNumber := trace3.turnNumber + 1,
  selectedCard := none,
  selectedAsset := none }

/-- The result of the second AI attack loop: it stops at the blocked
second attack of the turn. -/
def trace4blocked : GameState := aiLoop c6oracle trace3h

set_option maxRecDepth 20000 in
/-- C6 counterexample: in the reachable concrete game trace4, the AI's
second attack of its second turn is blocked (the player's
successful-defense counter steps).  The loop result equals the run on the
first three oracle entries only — the remaining continue draws are
never consumed — even though the continue policy evaluated on the
post-block hand and assets answers true at the oracle's own continue
percentile; instead the AI turn ends at once and the attacker role and
turn counter move on.  This refutes the claim that after a blocked AI
attack the continue-or-end policy re-runs and the same attacker keeps the
turn. -/
theorem c6_counterexample :
    Reachable trace4 ∧
    (trace4 = executeAITurn c6oracle trace3h ∧
      trace4blocked = aiLoop (c6oracle.take 3) trace3h ∧
      trace4blocked.player.successfulDefenses = trace3h.player.successfulDefenses + 1 ∧
      trace4blocked.phase = GamePhase.attack_phase ∧
      aiDecideContinueOrEnd trace4blocked.ai.taHand trace4blocked.player.assets
        Difficulty.hard 10 = true ∧
      trace4.currentAttacker = Who.player ∧
      trace4.turnNumber = trace3h.turnNumber + 1) :=
  ⟨trace4_reachable, by decide⟩

/-- A concrete state with the player about to attack into a matching AI
Defense Control. -/
def w6a : GameState := {
  phase := GamePhase.attack_phase,
  currentAttacker := Who.player,
  difficulty := some Difficulty.hard,
  player := ⟨[⟨1, ⟨Suit.spades, FaceCardType.jack⟩, AssetState.facedown, 0⟩],
    [⟨2, PlayableCard.threatAgent Suit.hearts 5⟩], [], [], [], 0⟩,
  ai := ⟨[⟨3, ⟨Suit.hearts, FaceCardType.jack⟩, AssetState.facedown, 0⟩], [],
    [⟨4, PlayableCard.defenseControl Suit.spades 5⟩], [], [], 0⟩,
  taDeck := [], dcDeck := [], attackState := none, turnNumber := 7,
  selectedCard := some ⟨2, PlayableCard.threatAgent Suit.hearts 5⟩,
  selectedAsset := some ⟨3, ⟨Suit.hearts, FaceCardType.jack⟩, AssetState.facedown, 0⟩,
  nextId := 10 }

/-- A concrete state with the AI about to attack into a matching player
Defense Control. -/
def w6b : GameState := {
  phase := GamePhase.attack_phase,
  currentAttacker := Who.ai,
  difficulty := some Difficulty.hard,
  player := ⟨[⟨1, ⟨Suit.spades, FaceCardType.jack⟩, AssetState.facedown, 0⟩], [],
    [⟨2, PlayableCard.defenseControl Suit.spades 7⟩], [], [], 0⟩,
  ai := ⟨[⟨3, ⟨Suit.hearts, FaceCardType.jack⟩, AssetState.facedown, 0⟩],
    [⟨4, PlayableCard.threatAgent Suit.hearts 7⟩], [], [], [], 0⟩,
  taDeck := [], dcDeck := [], attackState := none, turnNumber := 2,
  selectedCard := none, selectedAsset := none, nextId := 20 }

set_option maxRecDepth 20000 in
/-- Witness for C6 at the two concrete blocked-attack states. -/
theorem c6_blocked_attack_flow_witness :
    ((playerAttack 0 w6a).phase = GamePhase.attack_phase ∧
      (playerAttack 0 w6a).currentAttacker = Who.player ∧
      (playerAttack 0 w6a).turnNumber = w6a.turnNumber) ∧
    (aiLoop (⟨0, 10⟩ :: [⟨0, 10⟩]) w6b = aiLoop [⟨0, 10⟩] w6b ∧
      (executeAITurn (⟨0, 10⟩ :: [⟨0, 10⟩]) w6b).currentAttacker = Who.player ∧
      (executeAITurn (⟨0, 10⟩ :: [⟨0, 10⟩]) w6b).turnNumber = w6b.turnNumber + 1 ∧
      (executeAITurn (⟨0, 10⟩ :: [⟨0, 10⟩]) w6b).player.successfulDefenses =
        w6b.player.successfulDefenses + 1) :=
  ⟨c6_blocked_attack_flow.1 w6a 0 ⟨2, PlayableCard.threatAgent Suit.hearts 5⟩
      ⟨3, ⟨Suit.hearts, FaceCardType.jack⟩, AssetState.facedown, 0⟩
      ⟨4, PlayableCard.defenseControl Suit.spades 5⟩
      (by decide) (by decide) (by decide) (by decide) (by decide) (by decide)
      (by decide) (by decide) (by decide),
    c6_blocked_attack_flow.2 w6b ⟨0, 10⟩ [⟨0, 10⟩]
      ⟨1, ⟨Suit.spades, FaceCardType.jack⟩, AssetState.facedown, 0⟩
      ⟨4, PlayableCard.threatAgent Suit.hearts 7⟩
      ⟨2, PlayableCard.defenseControl Suit.spades 7⟩
      (by decide) (by decide) (by decide) (by decide) (by decide) (by decide)
      (by decide) (by decide)⟩
/-- C5: when a player attack resolves against an AI defense (the defense
chooser returns a card), the attack card moves from the player's attack
hand to the player's attack discard, the defense card moves from the AI's
defense hand to the AI's defense discard, the AI's successful-defense
counter increments by exactly one, the AI's defense hand is redrawn to
its post-removal size plus two capped by draw-pile availability, and both
sides' assets — in particular the targeted asset's state and damage
count — are unchanged. -/
theorem c5_blocked_attack_effects (s : GameState) (r : Nat) (c : HandCard)
    (a : CyberAsset) (d : HandCard)
    (hph : s.phase = GamePhase.attack_phase)
    (hat : s.currentAttacker = Who.player)
    (hc : s.selectedCard = some c)
    (ha : s.selectedAsset = some a)
    (hdec : aiChooseDefense s.ai.dcHand c.card (s.difficulty.getD Difficulty.hard) r
      = some d) :
    (playerAttack r s).player.taHand
        = s.player.taHand.filter (fun x => x.instanceId != c.instanceId) ∧
    (playerAttack r s).player.taDiscard = s.player.taDiscard ++ [c.card] ∧
    (playerAttack r s).ai.dcHand = (drawToHandSize
        (s.ai.dcHand.filter (fun x => x.instanceId != d.instanceId)) s.dcDeck
        ((s.ai.dcHand.filter (fun x => x.instanceId != d.instanceId)).length + 2)
        s.nextId).1 ∧
    (playerAttack r s).ai.dcHand.length
        = min ((s.ai.dcHand.filter (fun x => x.instanceId != d.instanceId)).length + 2)
            ((s.ai.dcHand.filter (fun x => x.instanceId != d.instanceId)).length
              + s.dcDeck.length) ∧
    (playerAttack r s).ai.dcDiscard = s.ai.dcDiscard ++ [d.card] ∧
    (playerAttack r s).ai.successfulDefenses = s.ai.successfulDefenses + 1 ∧
    (playerAttack r s).ai.assets = s.ai.assets ∧
    (playerAttack r s).player.assets = s.player.assets := by
  unfold playerAttack
  rw [hc, ha]
  dsimp only
  rw [if_neg (show ¬ s.phase ≠ GamePhase.attack_phase by simp [hph]),
    if_neg (show ¬ s.currentAttacker ≠ Who.player by simp [hat])]
  rw [hdec]
  dsimp only
  split
  all_goals refine ⟨rfl, rfl, rfl, ?_, rfl, rfl, rfl, rfl⟩
  all_goals
    dsimp only
    rw [drawToHandSize_length]
    omega

/-- The player attack card of the C5 witness state. -/
def cw5 : HandCard := ⟨2, PlayableCard.threatAgent Suit.hearts 5⟩

/-- The selected AI asset of the C5 witness state. -/
def aw5 : CyberAsset := ⟨3, ⟨Suit.hearts, FaceCardType.jack⟩, AssetState.facedown, 0⟩

/-- The matching AI Defense Control of the C5 witness state. -/
def dw5 : HandCard := ⟨4, PlayableCard.defenseControl Suit.spades 5⟩

/-- A concrete state whose player attack is met by a matching AI Defense
Control, with two defense cards left in the draw pile. -/
def w5 : GameState := {
  phase := GamePhase.attack_phase,
  currentAttacker := Who.player,
  difficulty := some Difficulty.hard,
  player := ⟨[⟨1, ⟨Suit.spades, FaceCardType.jack⟩, AssetState.facedown, 0⟩],
    [cw5], [], [], [], 0⟩,
  ai := ⟨[aw5], [], [dw5], [], [], 0⟩,
  taDeck := [],
  dcDeck := [PlayableCard.defenseControl Suit.diamonds 1,
    PlayableCard.defenseControl Suit.diamonds 2],
  attackState := none, turnNumber := 4,
  selectedCard := some cw5, selectedAsset := some aw5, nextId := 30 }

/-- Witness for C5 at the concrete blocked-attack state w5. -/
theorem c5_blocked_attack_effects_witness :
    (playerAttack 0 w5).player.taHand
        = w5.player.taHand.filter (fun x => x.instanceId != cw5.instanceId) ∧
    (playerAttack 0 w5).player.taDiscard = w5.player.taDiscard ++ [cw5.card] ∧
    (playerAttack 0 w5).ai.dcHand = (drawToHandSize
        (w5.ai.dcHand.filter (fun x => x.instanceId != dw5.instanceId)) w5.dcDeck
        ((w5.ai.dcHand.filter (fun x => x.instanceId != dw5.instanceId)).length + 2)
        w5.nextId).1 ∧
    (playerAttack 0 w5).ai.dcHand.length
        = min ((w5.ai.dcHand.filter (fun x => x.instanceId != dw5.instanceId)).length + 2)
            ((w5.ai.dcHand.filter (fun x => x.instanceId != dw5.instanceId)).length
              + w5.dcDeck.length) ∧
    (playerAttack 0 w5).ai.dcDiscard = w5.ai.dcDiscard ++ [dw5.card] ∧
    (playerAttack 0 w5).ai.successfulDefenses = w5.ai.successfulDefenses + 1 ∧
    (playerAttack 0 w5).ai.assets = w5.ai.assets ∧
    (playerAttack 0 w5).player.assets = w5.player.assets :=
  c5_blocked_attack_effects w5 0 cw5 aw5 dw5 (by decide) (by decide) (by decide)
    (by decide) (by decide)
